import Mathlib

/-!
Verification development for the qtpydocking repository (a Python/qtpy port of
the Qt Advanced Docking System).  The Python sources under qtpydocking/ are
shallowly embedded: pure computations become Lean functions, mutation of
widget/private state becomes explicit state passing, Python exceptions become
Option results (none = exception), and Qt classes are modelled by the fields
the embedded code actually reads and writes.  Machine integers do not occur:
Python ints are unbounded, so they are modelled by Int/Nat directly.
-/

namespace QtPyDocking

/-! ## Python / Qt primitives -/

/-- Python whitespace for str.strip(). -/
def pyIsSpace (c : Char) : Bool :=
  c = ' ' ∨ c = '\t' ∨ c = '\n' ∨ c = '\r' ∨ c = '\x0b' ∨ c = '\x0c'

/-- Python str.strip() on a character list. -/
def pyStrip (l : List Char) : List Char :=
  ((l.dropWhile pyIsSpace).reverse.dropWhile pyIsSpace).reverse

/-- str.startswith(c) for a single-character test string. -/
def startsWithCh (s : String) (c : Char) : Bool :=
  match s.toList with
  | [] => false
  | x :: _ => x = c

/-- Python int(str) restricted to the forms that occur in this code base:
optional surrounding whitespace, an optional sign, then decimal digits.
Returns none where Python raises ValueError. -/
def pyIntChars? (l : List Char) : Option Int :=
  let t := pyStrip l
  let (neg, digits) :=
    match t with
    | c :: rest =>
      if c = '-' then (true, rest)
      else if c = '+' then (false, rest)
      else (false, t)
    | [] => (false, t)
  if digits.length = 0 ∨ ¬ (digits.all Char.isDigit) then none
  else
    let n : Nat := digits.foldl (fun acc c => acc * 10 + (c.toNat - 48)) 0
    some (if neg then -(n : Int) else (n : Int))

def pyInt? (s : String) : Option Int := pyIntChars? s.toList

/-- Python truthiness of an int: bool(i). -/
def pyIntTruthy (i : Int) : Bool := i ≠ 0

/-- Membership test of enum.IntFlag: x in flags holds iff
flags.value AND x.value == x.value (flag values modelled as Nat bit masks). -/
def pyFlagMem (x flags : Nat) : Bool := flags &&& x = x

/-- Qt.Orientation. -/
inductive Orientation where
  | Horizontal
  | Vertical
  deriving DecidableEq, Repr

/-- QRect with integer coordinates (x, y, width, height). -/
structure QRectI where
  x : Int
  y : Int
  w : Int
  h : Int
  deriving DecidableEq, Repr

/-- QRect.contains(QPoint(px, py)): the point is inside iff
x ≤ px ≤ x + w - 1 and y ≤ py ≤ y + h - 1 (so empty rects contain nothing). -/
def QRectI.containsPt (r : QRectI) (px py : Int) : Bool :=
  r.x ≤ px ∧ px ≤ r.x + r.w - 1 ∧ r.y ≤ py ∧ py ≤ r.y + r.h - 1

/-! ## enums.py -/

/-- enums.DockWidgetArea values (enum.IntFlag). -/
def noArea : Nat := 0x00
def leftArea : Nat := 0x01
def rightArea : Nat := 0x02
def topArea : Nat := 0x04
def bottomArea : Nat := 0x08
def centerArea : Nat := 0x10
def invalidArea : Nat := noArea
def outerDockAreas : Nat := topArea ||| leftArea ||| rightArea ||| bottomArea
def allDockAreas : Nat := outerDockAreas ||| centerArea

/-- enums.DockWidgetFeature values (enum.IntFlag). -/
def closableFeature : Nat := 0x01
def movableFeature : Nat := 0x02
def floatableFeature : Nat := 0x04
def allFeatures : Nat := closableFeature ||| movableFeature ||| floatableFeature
def noFeatures : Nat := 0

/-- enums.OverlayMode. -/
inductive OverlayMode where
  | dock_area
  | container
  deriving DecidableEq, Repr

/-- enums.DockInsertParam: namedtuple of (orientation, append). -/
structure DockInsertParam where
  orientation : Orientation
  append : Bool
  deriving DecidableEq, Repr

/-- DockInsertParam.insert_offset property: 1 if self.append else 0. -/
def DockInsertParam.insert_offset (p : DockInsertParam) : Int :=
  if p.append then 1 else 0

/-! ## dock_container_widget.dock_area_insert_parameters

Embeds the chain of IntFlag equality tests in
dock_container_widget.py lines 25-47.  Python compares IntFlag members by
value, so the area argument is the Nat flag value. -/

def dock_area_insert_parameters (area : Nat) : DockInsertParam :=
  if area = topArea then ⟨.Vertical, false⟩
  else if area = rightArea then ⟨.Horizontal, true⟩
  else if area = centerArea ∨ area = bottomArea then ⟨.Vertical, true⟩
  else if area = leftArea then ⟨.Horizontal, false⟩
  else ⟨.Vertical, false⟩

/-! ## dock_container_widget.DockContainerWidget.features (C10)

The container keeps a list of dock areas; features() folds bitwise AND of
DockAreaWidget.features() over them starting from
DockWidgetFeature.all_features (dock_container_widget.py lines 1332-1346).
A dock area is represented here by the Nat value its features() call
returns. -/

def containerFeatures (areaFeatures : List Nat) : Nat :=
  areaFeatures.foldl (fun fs a => fs &&& a) allFeatures

/-! ## eliding_label.py (C8)

State of an ElidingLabel: the private ElidingLabelPrivate.text (dText), the
QLabel base-class text actually displayed (labelText), the tool tip, the
elide mode and the current widget width.  QFontMetrics.elidedText is a GUI
measurement, passed in as an oracle function fm of the full text (the width
and mode arguments of the real call are determined by the state and are
folded into the oracle). -/

inductive ElideMode where
  | ElideLeft
  | ElideRight
  | ElideMiddle
  | ElideNone
  deriving DecidableEq, Repr

structure ElidingLabelState where
  elideMode : ElideMode
  dText : String
  labelText : String
  toolTip : String
  deriving DecidableEq, Repr

/-- ElidingLabelPrivate.is_mode_elide_none. -/
def elidingIsModeElideNone (s : ElidingLabelState) : Bool :=
  s.elideMode = ElideMode.ElideNone

/-- ElidingLabelPrivate.elide_text: no-op in ElideNone mode, otherwise sets
the QLabel text to the elided text (with the lone-ellipsis special case). -/
def elidingElideText (fm : String → String) (s : ElidingLabelState) :
    ElidingLabelState :=
  if elidingIsModeElideNone s then s
  else
    let t := fm s.dText
    let t := if t = "…" then s.dText.take 1 else t
    { s with labelText := t }

/-- ElidingLabel.__init__(text): QLabel is initialised with the text, the
private text starts '' and is only assigned when text is truthy (non-empty),
in which case the tool tip is set too. -/
def elidingLabelInit (text : String) : ElidingLabelState :=
  let s : ElidingLabelState :=
    { elideMode := .ElideNone, dText := "", labelText := text, toolTip := "" }
  if text ≠ "" then { s with dText := text, toolTip := text } else s

/-- ElidingLabel.setText (eliding_label.py lines 167-180): in ElideNone mode
only the QLabel base text is set; otherwise the private text and tool tip are
updated and the text is re-elided. -/
def elidingSetText (fm : String → String) (s : ElidingLabelState)
    (text : String) : ElidingLabelState :=
  if elidingIsModeElideNone s then { s with labelText := text }
  else
    elidingElideText fm { s with dText := text, toolTip := text }

/-- ElidingLabel.text (eliding_label.py lines 182-190): returns the private
stored text. -/
def elidingText (s : ElidingLabelState) : String := s.dText

/-! ## dock_area_layout.py (C5, C9)

DockAreaLayout keeps a Python list of widgets, the current index, the current
widget and (through its parent QBoxLayout) the widget stored at layout slot 1.
Widgets are modelled by an arbitrary type α with decidable equality: Python
compares QWidgets by identity and the embedded code only ever compares,
inserts and removes whole widgets.  parentSlot models the item returned by
parent_layout.takeAt(1) / installed by parent_layout.addWidget. -/

structure DALState (α : Type) where
  widgets : List α
  currentIndex : Int
  currentWidget : Option α
  parentSlot : Option α
  deriving DecidableEq, Repr

/-- DockAreaLayout.__init__. -/
def dalInit (α : Type) : DALState α :=
  { widgets := [], currentIndex := -1, currentWidget := none, parentSlot := none }

/-- DockAreaLayout.count. -/
def dalCount {α : Type} (s : DALState α) : Nat := s.widgets.length

/-- Python index normalisation: a negative index counts from the end. -/
def pyNorm (len : Nat) (i : Int) : Int :=
  if i < 0 then (len : Int) + i else i

/-- Python list indexing lst[i] with negative-index support, returning none
on IndexError; this is DockAreaLayout.widget(index) which catches the
IndexError and returns None. -/
def pyGet {α : Type} (l : List α) (i : Int) : Option α :=
  if h : 0 ≤ pyNorm l.length i ∧ pyNorm l.length i < (l.length : Int) then
    some (l.get ⟨(pyNorm l.length i).toNat, by omega⟩)
  else none

/-- DockAreaLayout.widget(index). -/
def dalWidget {α : Type} (s : DALState α) (i : Int) : Option α :=
  pyGet s.widgets i

/-- The effective position of Python list.insert: the normalised index
clamped into [0, len]. -/
def pyClamp (len : Nat) (j : Int) : Nat :=
  if j ≤ 0 then 0 else min j.toNat len

/-- Python list.insert(i, a). -/
def pyInsert {α : Type} (l : List α) (i : Int) (a : α) : List α :=
  l.take (pyClamp l.length (pyNorm l.length i)) ++
    a :: l.drop (pyClamp l.length (pyNorm l.length i))

/-- Python list.remove(a): removes the first occurrence, none on ValueError
when a is absent. -/
def pyRemoveFirst {α : Type} [DecidableEq α] (l : List α) (a : α) :
    Option (List α) :=
  match l with
  | [] => none
  | x :: xs =>
    if x = a then some xs
    else (pyRemoveFirst xs a).map (fun r => x :: r)

/-- DockAreaLayout.set_current_index (dock_area_layout.py lines 91-123).
prev is the current widget; next_ is widget(index); the function returns
unchanged when next_ is None (the second disjunct of the source guard,
next_ is prev and not self._current_widget, is kept although it is
unsatisfiable once next_ is not None).  Otherwise slot 1 of the parent layout
is replaced by next_ and the index/current widget are stored. -/
def dalSetCurrentIndex {α : Type} [DecidableEq α] (s : DALState α) (index : Int) :
    DALState α :=
  let prev := s.currentWidget
  match dalWidget s index with
  | none => s
  | some next =>
    if some next = prev ∧ s.currentWidget = none then s
    else
      { s with parentSlot := some next
               currentIndex := index
               currentWidget := some next }

/-- Effective insertion index of DockAreaLayout.insert_widget: a negative
index is first replaced by len(widgets). -/
def dalEffIndex {α : Type} (s : DALState α) (i : Int) : Int :=
  if i < 0 then (s.widgets.length : Int) else i

/-- DockAreaLayout.insert_widget (dock_area_layout.py lines 40-59).  A
negative index is first replaced by len(widgets); after the list insertion,
either the new widget is activated (no current index) or the stored current
index is shifted when the insertion position is at or before it. -/
def dalInsertWidget {α : Type} [DecidableEq α] (s : DALState α) (index : Int)
    (w : α) : DALState α :=
  if s.currentIndex < 0 then
    dalSetCurrentIndex
      { s with widgets := pyInsert s.widgets (dalEffIndex s index) w }
      (dalEffIndex s index)
  else if dalEffIndex s index ≤ s.currentIndex then
    { s with widgets := pyInsert s.widgets (dalEffIndex s index) w
             currentIndex := s.currentIndex + 1 }
  else { s with widgets := pyInsert s.widgets (dalEffIndex s index) w }

/-- DockAreaLayout.remove_widget (dock_area_layout.py lines 61-79).  When the
removed widget is current, the parent layout slot 1 is taken (and the local
name widget is rebound to that item when it exists), the current widget and
index are reset, and the rebound widget is removed from the list; otherwise
the widget itself is removed.  none models the ValueError of list.remove. -/
def dalRemoveWidget {α : Type} [DecidableEq α] (s : DALState α) (w : α) :
    Option (DALState α) :=
  if s.currentWidget = some w then
    let item := s.parentSlot
    let w2 := match item with
      | some x => x
      | none => w
    let s2 : DALState α :=
      { s with parentSlot := none, currentWidget := none, currentIndex := -1 }
    (pyRemoveFirst s2.widgets w2).map (fun l => { s2 with widgets := l })
  else
    (pyRemoveFirst s.widgets w).map (fun l => { s with widgets := l })

/-- DockAreaLayout.current_widget. -/
def dalCurrentWidget {α : Type} (s : DALState α) : Option α := s.currentWidget

/-- DockAreaLayout.current_index. -/
def dalCurrentIndex {α : Type} (s : DALState α) : Int := s.currentIndex

/-- The invariant of claim C9: a non-negative current index is a valid
position whose widget is the current widget, and the index is negative
exactly when there is no current widget. -/
def dalInvariant {α : Type} (s : DALState α) : Prop :=
  (0 ≤ s.currentIndex →
    s.currentIndex < (s.widgets.length : Int) ∧
      dalWidget s s.currentIndex = s.currentWidget) ∧
  (s.currentIndex < 0 ↔ s.currentWidget = none)

instance {α : Type} [DecidableEq α] (s : DALState α) :
    Decidable (dalInvariant s) := by
  unfold dalInvariant
  infer_instance

/-! ## dock_overlay.py (C3, C6)

The overlay targeting state: the overlay cross holds the insertion-ordered
dict of drop indicator widgets (each a label with a visibility flag and a
geometry in cross coordinates) and the cross top-left position in global
coordinates (widget.mapFromGlobal(p) = p - topLeft).  The overlay knows its
allowed areas, its mode, its size, whether the drop preview is enabled, the
stored drop area rectangle, and its target widget; target is some info
exactly when the target widget is a DockAreaWidget (the isinstance test in
drop_area_under_cursor). -/

structure DropIndicator where
  visible : Bool
  geom : QRectI
  deriving DecidableEq, Repr

structure DockAreaTargetInfo where
  topLeft : Int × Int
  titleBarGeom : QRectI
  deriving DecidableEq, Repr

/-- QRect with rational coordinates, for the exact arithmetic of
DockOverlay.paintEvent (Python / is true division). -/
structure QRectQ where
  x : ℚ
  y : ℚ
  w : ℚ
  h : ℚ
  deriving DecidableEq, Repr

structure OverlayState where
  mode : OverlayMode
  allowedAreas : Nat
  crossTopLeft : Int × Int
  indicators : List (Nat × DropIndicator)
  target : Option DockAreaTargetInfo
  dropPreviewEnabled : Bool
  width : Int
  height : Int
  dropAreaRect : Option QRectQ
  deriving DecidableEq, Repr

/-- The for loop of DockOverlayCross.cursor_location: the first drop
indicator entry (in dict order) whose area is allowed, whose widget is
visible and whose geometry contains the given point. -/
def indicatorScan (allowed : Nat) (px py : Int) :
    List (Nat × DropIndicator) → Nat
  | [] => invalidArea
  | (area, wdg) :: rest =>
    if pyFlagMem area allowed ∧ wdg.visible ∧ wdg.geom.containsPt px py then
      area
    else indicatorScan allowed px py rest

/-- DockOverlayCross.cursor_location (dock_overlay.py lines 672-690): the
first drop indicator widget (in dict order) that is an allowed area, is
visible and whose geometry contains the cursor mapped into cross
coordinates; invalid otherwise. -/
def cursorLocation (s : OverlayState) (cursor : Int × Int) : Nat :=
  indicatorScan s.allowedAreas (cursor.1 - s.crossTopLeft.1)
    (cursor.2 - s.crossTopLeft.2) s.indicators

/-- DockOverlay.drop_area_under_cursor (dock_overlay.py lines 94-112): the
cross cursor location when it is not invalid; otherwise center when the
target widget is a DockAreaWidget whose title bar geometry contains the
cursor mapped into the dock area; invalid in every other case. -/
def dropAreaUnderCursor (s : OverlayState) (cursor : Int × Int) : Nat :=
  let result := cursorLocation s cursor
  if result ≠ invalidArea then result
  else
    match s.target with
    | some t =>
      if t.titleBarGeom.containsPt (cursor.1 - t.topLeft.1)
          (cursor.2 - t.topLeft.2) then centerArea
      else invalidArea
    | none => invalidArea

/-- QRect() - the default-constructed empty rectangle. -/
def emptyRectQ : QRectQ := ⟨0, 0, 0, 0⟩

/-- QRect.setX keeps the right edge x + w - 1 and changes the width. -/
def QRectQ.setX (r : QRectQ) (nx : ℚ) : QRectQ :=
  { r with x := nx, w := r.x + r.w - nx }

/-- QRect.setY keeps the bottom edge y + h - 1 and changes the height. -/
def QRectQ.setY (r : QRectQ) (ny : ℚ) : QRectQ :=
  { r with y := ny, h := r.y + r.h - ny }

def QRectQ.setWidth (r : QRectQ) (nw : ℚ) : QRectQ := { r with w := nw }

def QRectQ.setHeight (r : QRectQ) (nh : ℚ) : QRectQ := { r with h := nh }

/-- The strip denominator of DockOverlay.paintEvent:
3 if OverlayMode.container == self.d.mode else 2. -/
def overlayFactor (mode : OverlayMode) : ℚ :=
  if OverlayMode.container = mode then 3 else 2

/-- DockOverlay.paintEvent (dock_overlay.py lines 197-245), restricted to its
effect on the stored drop_area_rect (the painting calls mutate only the
painter).  Divisions are exact rational arithmetic. -/
def overlayPaintEvent (s : OverlayState) (cursor : Int × Int) : OverlayState :=
  if ¬ s.dropPreviewEnabled then { s with dropAreaRect := some emptyRectQ }
  else
    let r : QRectQ := ⟨0, 0, (s.width : ℚ), (s.height : ℚ)⟩
    let da := dropAreaUnderCursor s cursor
    let factor : ℚ := overlayFactor s.mode
    if da = topArea then
      { s with dropAreaRect := some (r.setHeight (r.h / factor)) }
    else if da = rightArea then
      { s with dropAreaRect := some (r.setX (r.w * (1 - 1 / factor))) }
    else if da = bottomArea then
      { s with dropAreaRect := some (r.setY (r.h * (1 - 1 / factor))) }
    else if da = leftArea then
      { s with dropAreaRect := some (r.setWidth (r.w / factor)) }
    else if da = centerArea then
      { s with dropAreaRect := some r }
    else s

/-- DockOverlay.enable_drop_preview (dock_overlay.py lines 157-167):
stores the flag (the triggered repaint is the paint event above). -/
def overlayEnableDropPreview (s : OverlayState) (enable : Bool) : OverlayState :=
  { s with dropPreviewEnabled := enable }

/-! ## XML documents

The save/restore code walks an XML document through QXmlStreamReader /
QXmlStreamWriter.  A well-formed document is modelled as a tree of elements,
each with a tag name, attributes, character data and child elements (a
mutually inductive forest so that the restore functions are structurally
recursive).  readNextStartElement iteration over an element is iteration
over its child list; QXmlStreamAttributes.value returns the empty string for
a missing attribute. -/

mutual
inductive XTree where
  | node (name : String) (attrs : List (String × String)) (text : String)
      (kids : XForest)
  deriving DecidableEq
inductive XForest where
  | nil
  | cons (head : XTree) (tail : XForest)
  deriving DecidableEq
end

def XTree.nameOf : XTree → String
  | .node n _ _ _ => n

def XTree.attrsOf : XTree → List (String × String)
  | .node _ a _ _ => a

def XTree.textOf : XTree → String
  | .node _ _ t _ => t

def XTree.kidsOf : XTree → XForest
  | .node _ _ _ k => k

def XForest.toList : XForest → List XTree
  | .nil => []
  | .cons k rest => k :: rest.toList

def XForest.ofList : List XTree → XForest
  | [] => .nil
  | k :: rest => .cons k (XForest.ofList rest)

/-- QXmlStreamAttributes.value(key): empty string when the attribute is
missing. -/
def attrValue (attrs : List (String × String)) (key : String) : String :=
  match attrs.lookup key with
  | some v => v
  | none => ""

/-! ## Restored widgets

A dock widget is identified by its object name together with the closed flag
the restore code assigns to it (the two pieces of per-widget state the
save/restore code reads and writes).  A restored layout node is either a
splitter (orientation, children, sizes list installed by setSizes, and the
visibility installed by setVisible) or a dock area (its DockAreaLayout
contents plus the currentDockWidget property set during restore); the
visibility flag models isVisibleTo of the created widget, which is false
exactly when the widget was explicitly hidden. -/

abbrev DW := String × Bool

inductive RWidget where
  | spl (orient : Orientation) (children : List RWidget) (sizes : List Int)
      (visible : Bool)
  | area (layout : DALState DW) (currentProp : String) (visible : Bool)

def RWidget.visibleTo : RWidget → Bool
  | .spl _ _ _ v => v
  | .area _ _ v => v

/-! ## dock_area_widget.py operations used during restore -/

/-- DockAreaWidget.set_current_index (dock_area_widget.py lines 662-680):
rejects an index outside [0, tab_bar.count() - 1] (the tab bar holds one tab
per widget in the contents layout, so its count equals the layout count),
then forwards to DockAreaLayout.set_current_index. -/
def areaSetCurrentIndexW (st : DALState DW) (idx : Int) : DALState DW :=
  if idx < 0 ∨ idx > (st.widgets.length : Int) - 1 then st
  else dalSetCurrentIndex st idx

/-- DockAreaWidget.insert_dock_widget (dock_area_widget.py lines 213-246),
restricted to its effect on the contents layout: inserts into the layout and,
when activate, activates the index. -/
def areaInsertDockWidget (st : DALState DW) (idx : Int) (dw : DW)
    (activate : Bool) : DALState DW :=
  let st1 := dalInsertWidget st idx dw
  if activate then areaSetCurrentIndexW st1 idx else st1

/-- DockAreaWidget.add_dock_widget: insert_dock_widget(count, widget) with
activate = True. -/
def areaAddDockWidget (st : DALState DW) (dw : DW) : DALState DW :=
  areaInsertDockWidget st (st.widgets.length : Int) dw true

/-- DockAreaWidget.index_of_first_open_dock_widget (dock_area_widget.py
lines 535-554): the first index whose dock widget is not closed, else -1. -/
def indexOfFirstOpen (st : DALState DW) : Int :=
  match st.widgets.findIdx? (fun d => d.2 = false) with
  | some i => (i : Int)
  | none => -1

/-! ## dock_container_widget.py restore helpers -/

/-- Python str.split(' '): split at every single space character (adjacent
spaces yield empty fields, and the empty string yields one empty field). -/
def pySplitSpace : List Char → List (List Char)
  | [] => [[]]
  | c :: rest =>
    match pySplitSpace rest with
    | [] => [[c]]
    | g :: gs => if c = ' ' then [] :: g :: gs else (c :: g) :: gs

/-- The integer list of a Sizes element:
readElementText().strip() followed by [int(sz) for sz in s.split(' ')];
none models the ValueError raised by int on a non-integer token. -/
def pySizes (t : String) : Option (List Int) :=
  (pySplitSpace (pyStrip t.toList)).mapM pyIntChars?

/-- The loop body of DockContainerWidgetPrivate.restore_dock_area
(dock_container_widget.py lines 600-621) over the child elements of an Area
element, in the TREE reading order, i.e. assuming the reader stays in sync
with the element structure.  CAUTION: the source executes `continue` on a
non-Widget child without calling stream.skipCurrentElement(), so the real
reader descends into such a child instead of passing over it; the faithful
stream semantics is srAreaLoop below, and the bridge theorems prove that
this tree version agrees with it exactly when every child element is a
Widget element (the shape DockAreaWidget.save_state writes).  A Widget
child with an empty Name attribute makes the whole restore return
(False, None) (modelled as some none); int(Closed attribute) may raise
(modelled as none).  A found, registered widget is added to the (hidden)
new dock area when not testing.  The accumulated pair is the contents
layout of the created dock area and its isVisibleTo flag (true until
dock_area.hide() is called). -/
def areaKidsLoop (reg : List String) (testing : Bool) :
    List XTree → DALState DW → Bool → Option (Option (DALState DW × Bool))
  | [], st, vis => some (some (st, vis))
  | k :: rest, st, vis =>
    if k.nameOf ≠ "Widget" then areaKidsLoop reg testing rest st vis
    else
      let objectName := attrValue k.attrsOf "Name"
      if objectName = "" then some none
      else
        match pyInt? (attrValue k.attrsOf "Closed") with
        | none => none
        | some cl =>
          let closed := pyIntTruthy cl
          if objectName ∈ reg ∧ testing = false then
            areaKidsLoop reg testing rest
              (areaAddDockWidget st (objectName, closed)) false
          else areaKidsLoop reg testing rest st vis

/-- DockContainerWidgetPrivate.restore_dock_area (dock_container_widget.py
lines 577-633) in the tree reading order (see the caution on areaKidsLoop;
srRestoreDockArea below is the stream-faithful version).  reg is the set of
object names registered in DockManager.find_dock_widget.  int(Tabs
attribute) may raise.  In testing mode the result widget is always None;
otherwise an area that received no dock widgets is dropped (True, None),
else the created area carries its contents layout and the saved Current
attribute as the currentDockWidget property. -/
def restoreDockArea (reg : List String) (testing : Bool) (e : XTree) :
    Option (Bool × Option RWidget) :=
  match e with
  | .node _ attrs _ kids =>
    match pyInt? (attrValue attrs "Tabs") with
    | none => none
    | some _tabs =>
      let currentName := attrValue attrs "Current"
      match areaKidsLoop reg testing kids.toList (dalInit DW) true with
      | none => none
      | some none => some (false, none)
      | some (some (st, vis)) =>
        if testing then some (true, none)
        else if st.widgets.length = 0 then some (true, none)
        else some (true, some (.area st currentName vis))

/-!
DockContainerWidgetPrivate.restore_splitter together with its child loop
(dock_container_widget.py lines 502-575), in the tree reading order: each
child element is consumed exactly once, which is what the reader does as
long as every Area element it meets contains only Widget children and every
Sizes element holds only character data (the stream-faithful semantics,
including the desync caused by restore_dock_area's missing
skipCurrentElement, is srRestoreSplitter below; the bridge theorems relate
the two).  The outer Option is a Python exception (int or Sizes parsing);
some none is the early (False, None) return when a child Splitter or Area
fails; the final accumulator of splitterKids is the list of widgets added
to the created splitter, the visible flag and the last parsed Sizes list.
In testing mode no splitter exists, so no children are accumulated (the
source guard: splitter is not None and child_node is not None).
-/
/-- The part of restore_splitter that follows the orientation check: parse
the Count attribute (int may raise), reject a zero count, consume the result
of the reading loop (loopRes), reject a Sizes list whose length differs from
Count, and otherwise deliver no widget (testing mode or an empty splitter)
or the splitter carrying its children, sizes and visibility. -/
def restoreSplitterFinish (testing : Bool) (orient : Orientation)
    (attrs : List (String × String))
    (loopRes : Option (Option (List RWidget × Bool × List Int))) :
    Option (Bool × Option RWidget) :=
  match pyInt? (attrValue attrs "Count") with
  | none => none
  | some widgetCount =>
    if ¬ pyIntTruthy widgetCount then some (false, none)
    else
      match loopRes with
      | none => none
      | some none => some (false, none)
      | some (some (children, visible, sizes)) =>
        if (sizes.length : Int) ≠ widgetCount then some (false, none)
        else if testing then some (true, none)
        else if children.length = 0 then some (true, none)
        else some (true, some (.spl orient children sizes visible))

mutual
def restoreSplitter (reg : List String) (testing : Bool) :
    XTree → Option (Bool × Option RWidget)
  | .node _ attrs _ kids =>
    let orientStr := attrValue attrs "Orientation"
    if startsWithCh orientStr '-' then
      restoreSplitterFinish testing .Horizontal attrs
        (splitterKids reg testing kids [] false [])
    else if startsWithCh orientStr '|' then
      restoreSplitterFinish testing .Vertical attrs
        (splitterKids reg testing kids [] false [])
    else some (false, none)

def splitterKids (reg : List String) (testing : Bool) :
    XForest → List RWidget → Bool → List Int →
    Option (Option (List RWidget × Bool × List Int))
  | .nil, acc, vis, sizes => some (some (acc, vis, sizes))
  | .cons k rest, acc, vis, sizes =>
    if k.nameOf = "Splitter" then
      match restoreSplitter reg testing k with
      | none => none
      | some (false, _) => some none
      | some (true, childNode) =>
        match childNode with
        | some c =>
          if testing = false then
            splitterKids reg testing rest (acc ++ [c]) (vis || c.visibleTo) sizes
          else splitterKids reg testing rest acc vis sizes
        | none => splitterKids reg testing rest acc vis sizes
    else if k.nameOf = "Area" then
      match restoreDockArea reg testing k with
      | none => none
      | some (false, _) => some none
      | some (true, childNode) =>
        match childNode with
        | some c =>
          if testing = false then
            splitterKids reg testing rest (acc ++ [c]) (vis || c.visibleTo) sizes
          else splitterKids reg testing rest acc vis sizes
        | none => splitterKids reg testing rest acc vis sizes
    else if k.nameOf = "Sizes" then
      match pySizes k.textOf with
      | none => none
      | some l => splitterKids reg testing rest acc vis l
    else splitterKids reg testing rest acc vis sizes
end

/-! ## Saving (dock_widget.py / dock_area_widget.py)

The writer side of the persistence format, at the level of XML elements. -/

/-- DockWidget.save_state (dock_widget.py lines 237-248): an empty Widget
element with the object name and closed flag. -/
def dwSaveState (dw : DW) : XTree :=
  .node "Widget" [("Name", dw.1), ("Closed", if dw.2 then "1" else "0")] "" .nil

/-- DockAreaWidget.save_state (dock_area_widget.py lines 584-603): an Area
element with the tab count, the current dock widget object name (empty when
there is none) and one Widget child per dock widget in layout order. -/
def areaSaveState (st : DALState DW) : XTree :=
  let currentName :=
    match dalCurrentWidget st with
    | some dw => dw.1
    | none => ""
  .node "Area"
    [("Tabs", toString st.widgets.length), ("Current", currentName)] ""
    (XForest.ofList (st.widgets.map dwSaveState))

/-! ## dock_manager.py restore_dock_areas_indices (C1)

After the tree is rebuilt, DockManagerPrivate.restore_dock_areas_indices
(dock_manager.py lines 179-199) walks every dock area and re-establishes its
current index from the currentDockWidget property that restore_dock_area
saved.  Note the source condition: dock_widget starts as None and
find_dock_widget is only called when `not dock_widget_name`, i.e. when the
saved name is EMPTY.  (restore_dock_widgets_open_state, which runs just
before, never changes the area current index during a restore because
DockAreaWidget.set_current_dock_widget returns immediately while
DockManager.is_restoring_state() is true.) -/

/-- Python list.index(a) (used by DockAreaLayout.index_of): first position,
none models the ValueError when the element is absent. -/
def pyListIndex {α : Type} [DecidableEq α] (l : List α) (a : α) : Option Nat :=
  l.findIdx? (fun x => x = a)

/-- DockAreaWidget.internal_set_current_dock_widget (dock_area_widget.py
lines 389-403): looks up the widget index in the contents layout (ValueError
if absent) and activates it. -/
def areaInternalSetCurrentDockWidget (st : DALState DW) (dw : DW) :
    Option (DALState DW) :=
  match pyListIndex st.widgets dw with
  | none => none
  | some i =>
    if (i : Int) < 0 then some st
    else some (areaSetCurrentIndexW st (i : Int))

/-- The per-area body of DockManagerPrivate.restore_dock_areas_indices.
findDW is DockManager.find_dock_widget; currentProp is the
currentDockWidget property stored on the area by restore_dock_area. -/
def restoreDockAreasIndicesStep (findDW : String → Option DW)
    (st : DALState DW) (currentProp : String) : Option (DALState DW) :=
  let dockWidgetName := currentProp
  let dockWidget : Option DW :=
    if dockWidgetName = "" then findDW dockWidgetName else none
  match dockWidget with
  | some dw =>
    if dw.2 then
      let index := indexOfFirstOpen st
      if index < 0 then some st else some (areaSetCurrentIndexW st index)
    else areaInternalSetCurrentDockWidget st dw
  | none =>
    let index := indexOfFirstOpen st
    if index < 0 then some st else some (areaSetCurrentIndexW st index)

/-! ## dock_manager.py state restoring (C2)

DockManagerPrivate.restore_state_from_xml / check_format / restore_state
(dock_manager.py lines 68-164).  The byte array is modelled at the level the
reader consumes it: an emptiness flag plus the root element when the bytes
form a well-formed document (stream.name() of a failed readNextStartElement
is the empty string).  The per-container work
(DockManagerPrivate.restore_container, which delegates to
DockContainerWidget.restore_state and FloatingDockContainer.restore_state)
and the whole-layout mutations that the non-testing pass performs are kept
abstract as an operations record over an arbitrary layout type L, so the
theorems below hold for every behaviour of those operations; check is
restore_container in testing mode, which only parses (every mutation in
DockContainerWidget.restore_state, restore_splitter and restore_dock_area is
guarded by `if not testing`), hence it returns only a success flag. -/

structure ContainerOps (L : Type) where
  check : Nat → XTree → Option Bool
  restoreC : Nat → XTree → L → Option (Bool × L)
  deleteEmptyFloating : Nat → L → L
  hideFloating : L → L
  markDirty : L → L
  openStates : L → L
  restoreIndices : L → L
  emitTopLevel : L → L

structure DMByteArray where
  isEmpty : Bool
  root : Option XTree

/-- stream.readNextStartElement() + stream.name() on the whole byte array:
the root tag name, or the empty string when there is no readable root. -/
def rootNameOf (st : DMByteArray) : String :=
  match st.root with
  | none => ""
  | some t => t.nameOf

/-- The Version attribute of the root element (empty when unreadable). -/
def rootVersionAttr (st : DMByteArray) : String :=
  match st.root with
  | none => ""
  | some t => attrValue t.attrsOf "Version"

/-- The while stream.readNextStartElement() loop of restore_state_from_xml:
runs restore_container on every Container child, counts the restored
containers and stops at the first failure. -/
def containerLoop {L : Type} (ops : ContainerOps L) (testing : Bool) :
    List XTree → Nat → L → Option (Bool × Nat × L)
  | [], cnt, layout => some (true, cnt, layout)
  | k :: rest, cnt, layout =>
    if k.nameOf = "Container" then
      if testing then
        match ops.check cnt k with
        | none => none
        | some false => some (false, cnt, layout)
        | some true => containerLoop ops testing rest (cnt + 1) layout
      else
        match ops.restoreC cnt k layout with
        | none => none
        | some (false, l2) => some (false, cnt, l2)
        | some (true, l2) => containerLoop ops testing rest (cnt + 1) l2
    else containerLoop ops testing rest cnt layout

/-- DockManagerPrivate.restore_state_from_xml (dock_manager.py lines
83-135). -/
def restoreStateFromXml {L : Type} (ops : ContainerOps L) (st : DMByteArray)
    (version : Int) (testing : Bool) (layout : L) : Option (Bool × L) :=
  if st.isEmpty then some (false, layout)
  else if rootNameOf st ≠ "QtAdvancedDockingSystem" then some (false, layout)
  else
    match pyInt? (rootVersionAttr st) with
    | none => none
    | some v =>
      if v ≠ version then some (false, layout)
      else
        match st.root with
        | none => some (false, layout)
        | some root =>
          match containerLoop ops testing root.kidsOf.toList 0 layout with
          | none => none
          | some (result, cnt, l2) =>
            if testing ∨ cnt = 0 then some (result, l2)
            else some (result, ops.deleteEmptyFloating cnt l2)

/-- DockManagerPrivate.check_format: restore_state_from_xml in testing
mode, returning only the flag. -/
def dmCheckFormat {L : Type} (ops : ContainerOps L) (st : DMByteArray)
    (version : Int) (layout : L) : Option Bool :=
  (restoreStateFromXml ops st version true layout).map (fun r => r.1)

/-- DockManagerPrivate.restore_state (dock_manager.py lines 137-164):
check_format first; only when it succeeds are the floating widgets hidden,
the dock widgets marked dirty, the state restored for real, and the open
states / area indices / top level events replayed. -/
def dmRestoreState {L : Type} (ops : ContainerOps L) (st : DMByteArray)
    (version : Int) (layout : L) : Option (Bool × L) :=
  match dmCheckFormat ops st version layout with
  | none => none
  | some false => some (false, layout)
  | some true =>
    let l1 := ops.markDirty (ops.hideFloating layout)
    match restoreStateFromXml ops st version false l1 with
    | none => none
    | some (false, l2) => some (false, l2)
    | some (true, l2) =>
      some (true, ops.emitTopLevel (ops.restoreIndices (ops.openStates l2)))

/-! ## Statement vocabulary for claim C7

The claim enumerates the failure conditions of restore_splitter in its own
words; those words are formalised here (and only compared against the source
functions above): which child elements count as failing, and what the
integers in the (last) Sizes element are. -/

/-- Claim C7 wording: the Orientation attribute starts with a dash or a
pipe. -/
def c7OrientOk (e : XTree) : Bool :=
  startsWithCh (attrValue e.attrsOf "Orientation") '-' ||
    startsWithCh (attrValue e.attrsOf "Orientation") '|'

/-- Claim C7 wording: a child Splitter or Area element fails to restore
(its restore call returns False). -/
def c7ChildFails (reg : List String) (testing : Bool) (k : XTree) : Bool :=
  if k.nameOf = "Splitter" then
    match restoreSplitter reg testing k with
    | some (false, _) => true
    | _ => false
  else if k.nameOf = "Area" then
    match restoreDockArea reg testing k with
    | some (false, _) => true
    | _ => false
  else false

/-- The last Sizes child element (the one whose parsed value survives the
reading loop). -/
def c7LastSizes : List XTree → Option XTree
  | [] => none
  | k :: rest =>
    match c7LastSizes rest with
    | some e => some e
    | none => if k.nameOf = "Sizes" then some k else none

/-- Claim C7 wording: the integers in the Sizes element ([] when no Sizes
element exists, none when they do not parse). -/
def c7ParsedSizes (kids : List XTree) : Option (List Int) :=
  match c7LastSizes kids with
  | none => some []
  | some k => pySizes k.textOf

/-! ## The reader stream (C7)

restore_splitter and restore_dock_area read a QXmlStreamReader, not a tree.
readNextStartElement reads tokens until the next start element, returning
false (and stopping) at any end element or at the end of the document;
skipCurrentElement consumes the whole current element, child elements
included; readElementText (with its default ErrorOnUnexpectedElement
behaviour) collects character data up to the end element, raising a stream
error at an unexpected child start element; a raised error makes every
subsequent read report failure, which ends all the read loops.

restore_dock_area's loop executes `continue` on a non-Widget child element
WITHOUT skipCurrentElement (dock_container_widget.py lines 600-602), so the
reader descends into that child instead of passing over it: at an empty
child the loop ends at the child's own end element, and the enclosing
restore_splitter loop then reads the remainder of the Area element as if it
were its own content, typically hitting the Area end tag and terminating
before later siblings (such as a Sizes element) are read.  The tree
functions above capture only the in-sync reading order; the functions in
this section are the faithful stream semantics, and the bridge theorems
below prove that the two agree exactly on documents in which every Area
child element is a Widget element and every Sizes element holds only
character data. -/

/-- One reader token: a start element carrying its attributes, an end
element, or character data. -/
inductive Tok where
  | startE (name : String) (attrs : List (String × String))
  | endE
  | chars (t : String)

/-- The reader: the remaining tokens plus the error flag (raiseError); in
an errored stream readNext returns Invalid, which ends every read loop. -/
structure XRd where
  toks : List Tok
  err : Bool

/-- QXmlStreamReader.readNextStartElement over the token list: skip
character data, stop at a start element (returning its name and
attributes) or at an end element or the end of the stream (returning
none), consuming everything read. -/
def rdNextStartGo :
    List Tok → Option (String × List (String × String)) × List Tok
  | [] => (none, [])
  | .chars _ :: ts => rdNextStartGo ts
  | .startE n a :: ts => (some (n, a), ts)
  | .endE :: ts => (none, ts)

def rdNextStart (s : XRd) : Option (String × List (String × String)) × XRd :=
  if s.err then (none, s)
  else
    match rdNextStartGo s.toks with
    | (res, ts) => (res, ⟨ts, false⟩)

/-- QXmlStreamReader.skipCurrentElement: depth counting starting from 1
(the start token of the element was already consumed); none models running
out of tokens (premature end of document, a stream error). -/
def rdSkipGo : Nat → List Tok → Option (List Tok)
  | _, [] => none
  | depth, .startE _ _ :: ts => rdSkipGo (depth + 1) ts
  | depth, .chars _ :: ts => rdSkipGo depth ts
  | depth, .endE :: ts => if depth = 1 then some ts else rdSkipGo (depth - 1) ts

def rdSkipCurrent (s : XRd) : XRd :=
  if s.err then s
  else
    match rdSkipGo 1 s.toks with
    | some ts => ⟨ts, false⟩
    | none => ⟨[], true⟩

/-- QXmlStreamReader.readElementText with its default
ErrorOnUnexpectedElement behaviour: collect character data up to the end
element; a child start element or the end of the stream raises a stream
error and returns the text collected so far. -/
def rdElementTextGo (acc : String) : List Tok → String × List Tok × Bool
  | [] => (acc, [], true)
  | .chars t :: ts => rdElementTextGo (acc ++ t) ts
  | .endE :: ts => (acc, ts, false)
  | .startE n a :: ts => (acc, .startE n a :: ts, true)

def rdElementText (s : XRd) : String × XRd :=
  if s.err then ("", s)
  else
    match rdElementTextGo "" s.toks with
    | (t, ts, e) => (t, ⟨ts, e⟩)

/-- The character-data tokens of an element's text (none when empty). -/
def charsOpt (t : String) : List Tok :=
  if t = "" then [] else [Tok.chars t]

/-! Serialising a tree into the reader's tokens. -/
mutual
def elemToks : XTree → List Tok
  | .node n a t kids =>
    Tok.startE n a :: (charsOpt t ++ (forestToks kids ++ [Tok.endE]))
def forestToks : XForest → List Tok
  | .nil => []
  | .cons k rest => elemToks k ++ forestToks rest
end

/-- The content tokens of an element: what the reader still has to consume
after readNextStartElement delivered the element's start tag (text,
children, and the closing end token). -/
def bodyToks : XTree → List Tok
  | .node _ _ t kids => charsOpt t ++ (forestToks kids ++ [Tok.endE])

/-- The loop of restore_dock_area over the reader (dock_container_widget.py
lines 598-621): readNextStartElement; a non-Widget child is `continue`d
WITHOUT skipCurrentElement, so the reader is left inside it; a Widget child
with an empty Name attribute returns (False, None); int(Closed) may raise
(none); a Widget child is consumed with skipCurrentElement and, when its
name is registered and not testing, added to the hidden area.  The fuel
bounds the number of loop iterations: every iteration consumes at least one
token, so any fuel beyond the token count behaves identically, and fuel
exhaustion (none) never corresponds to a real run. -/
def srAreaLoop (reg : List String) (testing : Bool) :
    Nat → DALState DW → Bool → XRd →
    Option (Option (DALState DW × Bool) × XRd)
  | 0, _, _, _ => none
  | fuel + 1, st, vis, s =>
    match rdNextStart s with
    | (none, s1) => some (some (st, vis), s1)
    | (some (n, a), s1) =>
      if n ≠ "Widget" then srAreaLoop reg testing fuel st vis s1
      else
        let objectName := attrValue a "Name"
        if objectName = "" then some (none, s1)
        else
          match pyInt? (attrValue a "Closed") with
          | none => none
          | some cl =>
            let closed := pyIntTruthy cl
            let s2 := rdSkipCurrent s1
            if objectName ∈ reg ∧ testing = false then
              srAreaLoop reg testing fuel
                (areaAddDockWidget st (objectName, closed)) false s2
            else srAreaLoop reg testing fuel st vis s2

/-- DockContainerWidgetPrivate.restore_dock_area over the reader
(dock_container_widget.py lines 577-633), entered after the caller's
readNextStartElement consumed the Area start tag and delivered its
attributes.  The returned reader is wherever the loop left it: past the
Area end tag when every child was a Widget element, but possibly still
inside the Area after the missing skipCurrentElement descends into a
non-Widget child. -/
def srRestoreDockArea (reg : List String) (testing : Bool) :
    Nat → List (String × String) → XRd →
    Option ((Bool × Option RWidget) × XRd)
  | 0, _, _ => none
  | fuel + 1, attrs, s =>
    match pyInt? (attrValue attrs "Tabs") with
    | none => none
    | some _tabs =>
      let currentName := attrValue attrs "Current"
      match srAreaLoop reg testing fuel (dalInit DW) true s with
      | none => none
      | some (none, s1) => some ((false, none), s1)
      | some (some (st, vis), s1) =>
        if testing then some ((true, none), s1)
        else if st.widgets.length = 0 then some ((true, none), s1)
        else some ((true, some (.area st currentName vis)), s1)

/-- restoreSplitterFinish over the reader: the same decisions, carrying the
reader position (s is the pre-loop reader, reported when Count is zero and
the loop never runs). -/
def srSplitterFinish (testing : Bool) (orient : Orientation)
    (attrs : List (String × String)) (s : XRd)
    (loopRes : Option (Option (List RWidget × Bool × List Int) × XRd)) :
    Option ((Bool × Option RWidget) × XRd) :=
  match pyInt? (attrValue attrs "Count") with
  | none => none
  | some widgetCount =>
    if ¬ pyIntTruthy widgetCount then some ((false, none), s)
    else
      match loopRes with
      | none => none
      | some (none, s1) => some ((false, none), s1)
      | some (some (children, visible, sizes), s1) =>
        if (sizes.length : Int) ≠ widgetCount then some ((false, none), s1)
        else if testing then some ((true, none), s1)
        else if children.length = 0 then some ((true, none), s1)
        else some ((true, some (.spl orient children sizes visible)), s1)

mutual
/-- DockContainerWidgetPrivate.restore_splitter over the reader
(dock_container_widget.py lines 502-575), entered after the caller consumed
the Splitter start tag and delivered its attributes. -/
def srRestoreSplitter (reg : List String) (testing : Bool) :
    Nat → List (String × String) → XRd →
    Option ((Bool × Option RWidget) × XRd)
  | 0, _, _ => none
  | fuel + 1, attrs, s =>
    let orientStr := attrValue attrs "Orientation"
    if startsWithCh orientStr '-' then
      srSplitterFinish testing .Horizontal attrs s
        (srSplitterLoop reg testing fuel [] false [] s)
    else if startsWithCh orientStr '|' then
      srSplitterFinish testing .Vertical attrs s
        (srSplitterLoop reg testing fuel [] false [] s)
    else some ((false, none), s)

/-- The while readNextStartElement loop of restore_splitter over the
reader (dock_container_widget.py lines 539-558): Splitter and Area children
are restored recursively (reporting (False, None) as soon as one fails), a
Sizes element is read with readElementText and parsed, any other child is
consumed whole with skipCurrentElement; outside testing mode each restored
child widget is added to the splitter and its visibility is accumulated. -/
def srSplitterLoop (reg : List String) (testing : Bool) :
    Nat → List RWidget → Bool → List Int → XRd →
    Option (Option (List RWidget × Bool × List Int) × XRd)
  | 0, _, _, _, _ => none
  | fuel + 1, acc, vis, sizes, s =>
    match rdNextStart s with
    | (none, s1) => some (some (acc, vis, sizes), s1)
    | (some (n, a), s1) =>
      if n = "Splitter" then
        match srRestoreSplitter reg testing fuel a s1 with
        | none => none
        | some ((false, _), s2) => some (none, s2)
        | some ((true, childNode), s2) =>
          match childNode with
          | some c =>
            if testing = false then
              srSplitterLoop reg testing fuel (acc ++ [c])
                (vis || c.visibleTo) sizes s2
            else srSplitterLoop reg testing fuel acc vis sizes s2
          | none => srSplitterLoop reg testing fuel acc vis sizes s2
      else if n = "Area" then
        match srRestoreDockArea reg testing fuel a s1 with
        | none => none
        | some ((false, _), s2) => some (none, s2)
        | some ((true, childNode), s2) =>
          match childNode with
          | some c =>
            if testing = false then
              srSplitterLoop reg testing fuel (acc ++ [c])
                (vis || c.visibleTo) sizes s2
            else srSplitterLoop reg testing fuel acc vis sizes s2
          | none => srSplitterLoop reg testing fuel acc vis sizes s2
      else if n = "Sizes" then
        match rdElementText s1 with
        | (t, s2) =>
          match pySizes t with
          | none => none
          | some l => srSplitterLoop reg testing fuel acc vis l s2
      else srSplitterLoop reg testing fuel acc vis sizes (rdSkipCurrent s1)
end

/-! ## Stream well-formedness (C7)

The shape of documents on which the reader stays in sync with the element
tree (in particular everything DockAreaWidget.save_state and
DockContainerWidgetPrivate.save_child_nodes_state write). -/

def isNilForest : XForest → Bool
  | .nil => true
  | .cons _ _ => false

/-- Every child element of an Area element is a Widget element: the one
shape on which restore_dock_area's missing skipCurrentElement can never
fire. -/
def areaKidsAllWidgets : XForest → Bool
  | .nil => true
  | .cons k rest => (k.nameOf = "Widget") && areaKidsAllWidgets rest

mutual
/-- Stream-well-formed Splitter subtree: every Area child holds only Widget
elements, every Sizes child holds only character data, and Splitter
children are again stream-well-formed.  Any other child is consumed whole
by skipCurrentElement, so its shape is unconstrained. -/
def c7wfTree : XTree → Bool
  | .node _ _ _ kids => c7wfKids kids
def c7wfKids : XForest → Bool
  | .nil => true
  | .cons k rest =>
    (if k.nameOf = "Splitter" then c7wfTree k
     else if k.nameOf = "Area" then areaKidsAllWidgets k.kidsOf
     else if k.nameOf = "Sizes" then isNilForest k.kidsOf
     else true) && c7wfKids rest
end

/-- The document of the C7 counterexample: a Splitter with a matching
Count, one Area child that restores successfully, and a matching Sizes
element - but the Area contains one empty non-Widget child element. -/
def c7CounterDoc : XTree :=
  .node "Splitter" [("Orientation", "-"), ("Count", "1")] ""
    (.cons (.node "Area" [("Tabs", "0"), ("Current", "")] ""
        (.cons (.node "Foo" [] "" .nil) .nil))
      (.cons (.node "Sizes" [] "100 " .nil) .nil))

/-! # Theorems -/

/-! ## Bitmask helper lemmas -/

theorem land_absorb_iff (a b f : Nat) :
    ((a &&& b) &&& f) = f ↔ ((a &&& f) = f ∧ (b &&& f) = f) := by
  have key1 : ∀ x y z : Bool, ((x && y) && z) = z → (x && z) = z ∧ (y && z) = z := by
    decide
  have key2 : ∀ x y z : Bool, (x && z) = z → (y && z) = z → ((x && y) && z) = z := by
    decide
  constructor
  · intro h
    constructor <;> apply Nat.eq_of_testBit_eq <;> intro i <;>
      have hi : ((a &&& b) &&& f).testBit i = f.testBit i := by rw [h]
    · simp only [Nat.testBit_and] at hi ⊢
      exact (key1 _ _ _ hi).1
    · simp only [Nat.testBit_and] at hi ⊢
      exact (key1 _ _ _ hi).2
  · rintro ⟨h1, h2⟩
    apply Nat.eq_of_testBit_eq
    intro i
    have i1 : ((a &&& f)).testBit i = f.testBit i := by rw [h1]
    have i2 : ((b &&& f)).testBit i = f.testBit i := by rw [h2]
    simp only [Nat.testBit_and] at i1 i2 ⊢
    exact key2 _ _ _ i1 i2

theorem foldl_land_mem (f init : Nat) (l : List Nat) :
    ((l.foldl (fun fs a => fs &&& a) init) &&& f) = f ↔
      ((init &&& f) = f ∧ ∀ a ∈ l, (a &&& f) = f) := by
  induction l generalizing init with
  | nil => simp
  | cons b t ih =>
    simp only [List.foldl_cons, ih, land_absorb_iff, List.mem_cons]
    constructor
    · rintro ⟨⟨h1, h2⟩, h3⟩
      exact ⟨h1, fun a ha => ha.elim (fun e => e ▸ h2) (h3 a)⟩
    · rintro ⟨h1, h2⟩
      exact ⟨⟨h1, h2 b (Or.inl rfl)⟩, fun a ha => h2 a (Or.inr ha)⟩

/-! ## Claim C4 -/

/-- C4: dock_area_insert_parameters returns (Horizontal, append=False) for
left, (Horizontal, True) for right, (Vertical, False) for top,
(Vertical, True) for bottom and center, (Vertical, False) for any other
value; and insert_offset is 1 when append is True and 0 when it is False. -/
theorem C4_dock_area_insert_parameters :
    dock_area_insert_parameters leftArea = ⟨.Horizontal, false⟩ ∧
    dock_area_insert_parameters rightArea = ⟨.Horizontal, true⟩ ∧
    dock_area_insert_parameters topArea = ⟨.Vertical, false⟩ ∧
    dock_area_insert_parameters bottomArea = ⟨.Vertical, true⟩ ∧
    dock_area_insert_parameters centerArea = ⟨.Vertical, true⟩ ∧
    (∀ a : Nat, a ≠ leftArea → a ≠ rightArea → a ≠ topArea →
      a ≠ bottomArea → a ≠ centerArea →
      dock_area_insert_parameters a = ⟨.Vertical, false⟩) ∧
    (∀ p : DockInsertParam,
      p.insert_offset = if p.append then 1 else 0) := by
  refine ⟨rfl, rfl, rfl, rfl, rfl, ?_, fun p => rfl⟩
  intro a h1 h2 h3 h4 h5
  unfold dock_area_insert_parameters
  simp only [topArea, rightArea, centerArea, bottomArea, leftArea] at *
  rw [if_neg h3, if_neg h2, if_neg (by tauto), if_neg h1]

/-- Witness for C4 at the arbitrary flag value 3 = left|right. -/
theorem C4_witness :
    dock_area_insert_parameters 3 = ⟨.Vertical, false⟩ :=
  C4_dock_area_insert_parameters.2.2.2.2.2.1 3 (by decide) (by decide)
    (by decide) (by decide) (by decide)

/-! ## Claim C10 -/

/-- C10: DockContainerWidget.features() is the bitwise AND of the dock area
features over all areas of the container: every defined feature flag is in
the result iff every dock area supports it, and the empty container yields
DockWidgetFeature.all_features. -/
theorem C10_container_features :
    containerFeatures [] = allFeatures ∧
    ∀ (l : List Nat) (f : Nat),
      f = closableFeature ∨ f = movableFeature ∨ f = floatableFeature →
      (pyFlagMem f (containerFeatures l) = true ↔
        ∀ a ∈ l, pyFlagMem f a = true) := by
  refine ⟨rfl, ?_⟩
  intro l f hf
  have base : (allFeatures &&& f) = f := by
    rcases hf with h | h | h <;> subst h <;> decide
  simp only [pyFlagMem, containerFeatures, decide_eq_true_eq, foldl_land_mem,
    base, true_and]

/-- Witness for C10: the closable flag on a concrete two-area container. -/
theorem C10_witness :
    pyFlagMem closableFeature (containerFeatures [7, 5]) = true ↔
      ∀ a ∈ [7, 5], pyFlagMem closableFeature a = true :=
  C10_container_features.2 [7, 5] closableFeature (Or.inl rfl)

/-! ## Claim C8 -/

/-- C8 (code bug): with the default elide mode ElideNone, setText does not
store the new text, so text() returns the stale stored text while the QLabel
displays the new one.  Evaluated at the failing input: a default-constructed
ElidingLabel, setText("hello"), then text(). -/
theorem C8_set_text_stale_in_elide_none :
    (elidingLabelInit "").elideMode = ElideMode.ElideNone ∧
    elidingText (elidingSetText (fun t => t) (elidingLabelInit "") "hello") = "" ∧
    (elidingSetText (fun t => t) (elidingLabelInit "") "hello").labelText =
      "hello" ∧
    elidingText (elidingSetText (fun t => t) (elidingLabelInit "") "hello") ≠
      "hello" := by
  refine ⟨rfl, rfl, rfl, ?_⟩
  decide

/-! ## Claim C5 -/

/-- Counterexample to C5 as stated: on an empty DockAreaLayout (no current
widget), insert_widget(1, w) inserts the widget but does not make it
current, because set_current_index(1) finds no widget at index 1 and
returns. -/
theorem C5_counterexample :
    (dalInsertWidget (dalInit Nat) 1 7).widgets = [7] ∧
    dalCurrentWidget (dalInsertWidget (dalInit Nat) 1 7) = none ∧
    dalCurrentWidget (dalInsertWidget (dalInit Nat) 1 7) ≠ some 7 := by
  refine ⟨rfl, rfl, ?_⟩
  decide

theorem dalSetCurrentIndex_widgets {α : Type} [DecidableEq α]
    (s : DALState α) (i : Int) :
    (dalSetCurrentIndex s i).widgets = s.widgets := by
  unfold dalSetCurrentIndex
  cases h : dalWidget s i with
  | none => rfl
  | some next => dsimp only; split <;> rfl

theorem dalSetCurrentIndex_of_some {α : Type} [DecidableEq α]
    (s : DALState α) (i : Int) (x : α) (h : dalWidget s i = some x) :
    dalSetCurrentIndex s i =
      { s with parentSlot := some x, currentIndex := i,
               currentWidget := some x } := by
  unfold dalSetCurrentIndex
  simp only [h]
  rw [if_neg]
  rintro ⟨h1, h2⟩
  rw [h2] at h1
  exact Option.noConfusion h1

theorem pyClamp_le (len : Nat) (j : Int) : pyClamp len j ≤ len := by
  unfold pyClamp
  split <;> omega

theorem pyClamp_coe (len : Nat) (e : Nat) (he : e ≤ len) :
    pyClamp len (e : Int) = e := by
  unfold pyClamp
  split <;> omega

theorem pyInsert_length {α : Type} (l : List α) (i : Int) (a : α) :
    (pyInsert l i a).length = l.length + 1 := by
  unfold pyInsert
  have := pyClamp_le l.length (pyNorm l.length i)
  simp only [List.length_append, List.length_take, List.length_cons,
    List.length_drop]
  omega

theorem pyInsert_getElem {α : Type} (l : List α) (e : Nat) (a : α)
    (he : e ≤ l.length) : (pyInsert l (e : Int) a)[e]? = some a := by
  unfold pyInsert
  rw [show pyNorm l.length (e : Int) = (e : Int) by unfold pyNorm; split <;> omega]
  rw [pyClamp_coe l.length e he]
  rw [List.getElem?_append_right (by simp only [List.length_take]; omega)]
  simp [List.length_take, Nat.min_eq_left he]

theorem pyGet_nonneg {α : Type} (l : List α) (i : Int) (h0 : 0 ≤ i) :
    pyGet l i = l[i.toNat]? := by
  unfold pyGet
  have hn : pyNorm l.length i = i := by unfold pyNorm; split <;> omega
  simp only [hn]
  split
  · rename_i h
    rw [List.getElem?_eq_getElem (by omega)]
    simp [List.get_eq_getElem]
  · rename_i h
    rw [List.getElem?_eq_none]
    omega

theorem pyGet_pyInsert_self {α : Type} (l : List α) (e : Int) (a : α)
    (h0 : 0 ≤ e) (he : e ≤ (l.length : Int)) :
    pyGet (pyInsert l e a) e = some a := by
  rw [pyGet_nonneg _ _ h0]
  have h1 := pyInsert_getElem l e.toNat a (by omega)
  rw [show ((e.toNat : Int)) = e by omega] at h1
  exact h1

/-- C5 amended: insert_widget(i, w) on a layout with no current widget makes
w current whenever the effective insertion position (count() for negative i)
is at most count(); with a current widget it bumps the stored index by one
when inserting at or before it and leaves index and current widget unchanged
when inserting after it; a negative i appends at the end.  (For an
out-of-range positive i with no current widget the widget is appended but no
widget becomes current, as the counterexample shows.) -/
theorem C5_insert_widget (α : Type) [DecidableEq α] (s : DALState α)
    (i : Int) (w : α) :
    (s.currentIndex < 0 → dalEffIndex s i ≤ (s.widgets.length : Int) →
      dalCurrentWidget (dalInsertWidget s i w) = some w ∧
      dalCurrentIndex (dalInsertWidget s i w) = dalEffIndex s i) ∧
    (0 ≤ s.currentIndex → dalEffIndex s i ≤ s.currentIndex →
      dalCurrentIndex (dalInsertWidget s i w) = s.currentIndex + 1 ∧
      dalCurrentWidget (dalInsertWidget s i w) = dalCurrentWidget s) ∧
    (0 ≤ s.currentIndex → s.currentIndex < dalEffIndex s i →
      dalCurrentIndex (dalInsertWidget s i w) = s.currentIndex ∧
      dalCurrentWidget (dalInsertWidget s i w) = dalCurrentWidget s) ∧
    (i < 0 → (dalInsertWidget s i w).widgets = s.widgets ++ [w]) := by
  refine ⟨?_, ?_, ?_, ?_⟩
  · intro hcur he
    have he0 : 0 ≤ dalEffIndex s i := by
      unfold dalEffIndex; split <;> omega
    unfold dalInsertWidget
    rw [if_pos hcur]
    have hw : dalWidget
        { s with widgets := pyInsert s.widgets (dalEffIndex s i) w }
        (dalEffIndex s i) = some w := by
      unfold dalWidget
      exact pyGet_pyInsert_self s.widgets (dalEffIndex s i) w he0 he
    rw [dalSetCurrentIndex_of_some _ _ _ hw]
    exact ⟨rfl, rfl⟩
  · intro hcur he
    unfold dalInsertWidget
    rw [if_neg (by omega), if_pos he]
    exact ⟨rfl, rfl⟩
  · intro hcur he
    unfold dalInsertWidget
    rw [if_neg (by omega), if_neg (by omega)]
    exact ⟨rfl, rfl⟩
  · intro hneg
    have heff : dalEffIndex s i = (s.widgets.length : Int) := by
      unfold dalEffIndex; rw [if_pos hneg]
    have hg : pyInsert s.widgets (dalEffIndex s i) w = s.widgets ++ [w] := by
      unfold pyInsert
      rw [heff]
      rw [show pyNorm s.widgets.length (s.widgets.length : Int) =
        (s.widgets.length : Int) by unfold pyNorm; split <;> omega]
      rw [pyClamp_coe _ _ (le_refl _), List.take_length, List.drop_length]
    unfold dalInsertWidget
    split
    · rw [dalSetCurrentIndex_widgets]
      exact hg
    · split <;> exact hg

/-- Witness for C5: inserting 5 at position 0 of the empty layout makes it
current at index 0; the negative-index clause appends. -/
theorem C5_witness :
    (dalCurrentWidget (dalInsertWidget (dalInit Nat) 0 5) = some 5 ∧
      dalCurrentIndex (dalInsertWidget (dalInit Nat) 0 5) =
        dalEffIndex (dalInit Nat) 0) ∧
    (dalInsertWidget (dalInit Nat) (-1) 5).widgets = [] ++ [5] :=
  ⟨(C5_insert_widget Nat (dalInit Nat) 0 5).1 (by decide) (by decide),
   (C5_insert_widget Nat (dalInit Nat) (-1) 5).2.2.2 (by decide)⟩

/-! ## Claim C9 -/

theorem dalSetCurrentIndex_of_none {α : Type} [DecidableEq α]
    (s : DALState α) (i : Int) (h : dalWidget s i = none) :
    dalSetCurrentIndex s i = s := by
  unfold dalSetCurrentIndex
  simp only [h]

theorem pyGet_some_bound {α : Type} (l : List α) (i : Int) (x : α)
    (h0 : 0 ≤ i) (h : pyGet l i = some x) : i < (l.length : Int) := by
  rw [pyGet_nonneg _ _ h0] at h
  have : i.toNat < l.length := by
    by_contra hc
    rw [List.getElem?_eq_none (by omega)] at h
    exact Option.noConfusion h
  omega

theorem pyInsert_getElem_before {α : Type} (l : List α) (i : Int) (a : α)
    (n : Nat) (hn : n < pyClamp l.length (pyNorm l.length i)) :
    (pyInsert l i a)[n]? = l[n]? := by
  unfold pyInsert
  have hple := pyClamp_le l.length (pyNorm l.length i)
  rw [List.getElem?_append_left (by simp only [List.length_take]; omega)]
  exact List.getElem?_take_of_lt hn

theorem pyInsert_getElem_after {α : Type} (l : List α) (e : Nat) (a : α)
    (n : Nat) (he : e ≤ l.length) (hn : e ≤ n) :
    (pyInsert l (e : Int) a)[n + 1]? = l[n]? := by
  unfold pyInsert
  rw [show pyNorm l.length (e : Int) = (e : Int) by
    unfold pyNorm; split <;> omega]
  rw [pyClamp_coe l.length e he]
  have hlt : (l.take e).length = e := by
    simp only [List.length_take]; omega
  rw [List.getElem?_append_right (by omega)]
  rw [hlt]
  have hs : n + 1 - e = (n - e) + 1 := by omega
  rw [hs, List.getElem?_cons_succ, List.getElem?_drop]
  congr 1
  omega

theorem pyRemoveFirst_spec {α : Type} [DecidableEq α] (l : List α) (a : α)
    (r : List α) (h : pyRemoveFirst l a = some r) :
    ∃ p, pyListIndex l a = some p ∧ l.length = r.length + 1 ∧
      p < l.length ∧ ∀ n, n < p → r[n]? = l[n]? := by
  induction l generalizing r with
  | nil => exact Option.noConfusion h
  | cons x xs ih =>
    unfold pyRemoveFirst at h
    by_cases hx : x = a
    · rw [if_pos hx] at h
      refine ⟨0, ?_, ?_, ?_, ?_⟩
      · unfold pyListIndex
        rw [List.findIdx?_cons]
        simp [hx]
      · simp [← Option.some_inj.mp h]
      · simp
      · intro n hn; omega
    · rw [if_neg hx] at h
      rcases Option.map_eq_some'.mp h with ⟨r', hr', hrr⟩
      rcases ih r' hr' with ⟨p, hp1, hp2, hp3, hp4⟩
      refine ⟨p + 1, ?_, ?_, ?_, ?_⟩
      · unfold pyListIndex at hp1 ⊢
        rw [List.findIdx?_cons]
        simp only [decide_eq_true_eq, hx, if_false]
        rw [List.findIdx?_succ, hp1]
        rfl
      · simp [← hrr, hp2]
      · simp
        omega
      · intro n hn
        subst hrr
        cases n with
        | zero => simp
        | succ m =>
          rw [List.getElem?_cons_succ, List.getElem?_cons_succ]
          exact hp4 m (by omega)

/-- Counterexample to C9 as stated: starting from the empty layout (which
satisfies the invariant), insert 10 at 0 (it becomes current), insert 20 at
0 (the current index becomes 1), then remove the non-current widget 20
stored at position 0: the current index stays 1 and now points past the
current widget, violating the invariant. -/
theorem C9_counterexample :
    dalInvariant (dalInit Nat) ∧
    dalInvariant (dalInsertWidget (dalInit Nat) 0 10) ∧
    dalInsertWidget (dalInsertWidget (dalInit Nat) 0 10) 0 20 =
      ⟨[20, 10], 1, some 10, some 10⟩ ∧
    dalInvariant (⟨[20, 10], 1, some 10, some 10⟩ : DALState Nat) ∧
    dalRemoveWidget (⟨[20, 10], 1, some 10, some 10⟩ : DALState Nat) 20 =
      some ⟨[10], 1, some 10, some 10⟩ ∧
    ¬ dalInvariant (⟨[10], 1, some 10, some 10⟩ : DALState Nat) :=
  ⟨by decide, by decide, rfl, by decide, rfl, by decide⟩

theorem dalInvariant_initial (α : Type) : dalInvariant (dalInit α) := by
  unfold dalInvariant dalInit
  norm_num

theorem dalInvariant_set {α : Type} [DecidableEq α] (s : DALState α)
    (i : Int) (hs : dalInvariant s) (hi : 0 ≤ i) :
    dalInvariant (dalSetCurrentIndex s i) := by
  cases h : dalWidget s i with
  | none => rw [dalSetCurrentIndex_of_none s i h]; exact hs
  | some x =>
    rw [dalSetCurrentIndex_of_some s i x h]
    have hb : i < (s.widgets.length : Int) :=
      pyGet_some_bound s.widgets i x hi h
    refine ⟨fun _ => ⟨hb, h⟩, ?_, ?_⟩
    · show i < 0 → some x = none
      intro hneg; omega
    · show some x = none → i < 0
      intro hnone; exact Option.noConfusion hnone

theorem dalInvariant_insert {α : Type} [DecidableEq α] (s : DALState α)
    (i : Int) (w : α) (hs : dalInvariant s) :
    dalInvariant (dalInsertWidget s i w) := by
  have he0 : 0 ≤ dalEffIndex s i := by
    unfold dalEffIndex; split <;> omega
  unfold dalInsertWidget
  by_cases hc : s.currentIndex < 0
  · rw [if_pos hc]
    apply dalInvariant_set _ _ _ he0
    refine ⟨?_, ?_, ?_⟩
    · show 0 ≤ s.currentIndex → _ ∧ _
      intro h; omega
    · show s.currentIndex < 0 → s.currentWidget = none
      intro _; exact hs.2.mp hc
    · show s.currentWidget = none → s.currentIndex < 0
      intro _; exact hc
  · rw [if_neg hc]
    have hci0 : 0 ≤ s.currentIndex := by omega
    rcases hs.1 hci0 with ⟨hlt, hwid⟩
    have hsomew : s.currentWidget ≠ none := by
      intro hnone
      exact absurd (hs.2.mpr hnone) hc
    by_cases hle : dalEffIndex s i ≤ s.currentIndex
    · rw [if_pos hle]
      refine ⟨?_, ?_, ?_⟩
      · intro _
        refine ⟨?_, ?_⟩
        · show s.currentIndex + 1 < ((pyInsert s.widgets (dalEffIndex s i) w).length : Int)
          rw [pyInsert_length]
          push_cast
          omega
        · show pyGet (pyInsert s.widgets (dalEffIndex s i) w)
            (s.currentIndex + 1) = s.currentWidget
          rw [pyGet_nonneg _ _ (by omega)]
          have hget := pyInsert_getElem_after s.widgets
            (dalEffIndex s i).toNat w s.currentIndex.toNat (by omega) (by omega)
          rw [show (((dalEffIndex s i).toNat : Int)) = dalEffIndex s i by omega]
            at hget
          rw [show (s.currentIndex + 1).toNat = s.currentIndex.toNat + 1 by omega]
          rw [hget, ← pyGet_nonneg _ _ hci0]
          exact hwid
      · show s.currentIndex + 1 < 0 → s.currentWidget = none
        intro h; omega
      · show s.currentWidget = none → s.currentIndex + 1 < 0
        intro h; exact absurd h hsomew
    · rw [if_neg hle]
      refine ⟨?_, ?_, ?_⟩
      · intro _
        refine ⟨?_, ?_⟩
        · show s.currentIndex < ((pyInsert s.widgets (dalEffIndex s i) w).length : Int)
          rw [pyInsert_length]
          push_cast
          omega
        · show pyGet (pyInsert s.widgets (dalEffIndex s i) w)
            s.currentIndex = s.currentWidget
          rw [pyGet_nonneg _ _ hci0]
          rw [pyInsert_getElem_before]
          · rw [← pyGet_nonneg _ _ hci0]; exact hwid
          · have hn : pyNorm s.widgets.length (dalEffIndex s i) =
                dalEffIndex s i := by
              unfold pyNorm; split <;> omega
            unfold pyClamp
            rw [hn]
            split <;> omega
      · show s.currentIndex < 0 → s.currentWidget = none
        intro h; omega
      · show s.currentWidget = none → s.currentIndex < 0
        intro h; exact absurd h hsomew

theorem dalInvariant_remove {α : Type} [DecidableEq α] (s s2 : DALState α)
    (w : α) (hs : dalInvariant s) (hrem : dalRemoveWidget s w = some s2)
    (hcond : s.currentWidget = some w ∨
      ∀ p, pyListIndex s.widgets w = some p → s.currentIndex < (p : Int)) :
    dalInvariant s2 := by
  unfold dalRemoveWidget at hrem
  by_cases hcur : s.currentWidget = some w
  · rw [if_pos hcur] at hrem
    rcases Option.map_eq_some'.mp hrem with ⟨r, _, hr2⟩
    subst hr2
    refine ⟨?_, ?_, ?_⟩
    · show (0 : Int) ≤ -1 → _ ∧ _
      intro h; omega
    · show (-1 : Int) < 0 → (none : Option α) = none
      intro _; rfl
    · show (none : Option α) = none → (-1 : Int) < 0
      intro _; omega
  · rw [if_neg hcur] at hrem
    rcases Option.map_eq_some'.mp hrem with ⟨r, hr1, hr2⟩
    have hafter : ∀ p, pyListIndex s.widgets w = some p →
        s.currentIndex < (p : Int) := by
      rcases hcond with h | h
      · exact absurd h hcur
      · exact h
    rcases pyRemoveFirst_spec s.widgets w r hr1 with ⟨p, hp1, hp2, hp3, hp4⟩
    have hplt := hafter p hp1
    subst hr2
    by_cases hci : 0 ≤ s.currentIndex
    · rcases hs.1 hci with ⟨hlt, hwid⟩
      refine ⟨?_, ?_, ?_⟩
      · intro _
        refine ⟨?_, ?_⟩
        · show s.currentIndex < (r.length : Int)
          omega
        · show pyGet r s.currentIndex = s.currentWidget
          rw [pyGet_nonneg _ _ hci, hp4 s.currentIndex.toNat (by omega)]
          rw [← pyGet_nonneg _ _ hci]
          exact hwid
      · show s.currentIndex < 0 → s.currentWidget = none
        intro h; omega
      · show s.currentWidget = none → s.currentIndex < 0
        intro h
        exact hs.2.mpr h
    · refine ⟨?_, ?_, ?_⟩
      · show 0 ≤ s.currentIndex → _ ∧ _
        intro h; omega
      · show s.currentIndex < 0 → s.currentWidget = none
        intro _
        exact hs.2.mp (by omega)
      · show s.currentWidget = none → s.currentIndex < 0
        intro _; omega

/-- C9 amended: the invariant holds initially and is preserved by
insert_widget, by set_current_index with a non-negative index, and by
remove_widget when the removed widget is the current widget or every stored
occurrence of it lies strictly after the current index.  (As the
counterexample shows, removing a non-current widget stored before the
current index breaks the invariant because the index is not decremented;
set_current_index with a negative in-range index would likewise break the
sign/None correspondence.) -/
theorem C9_invariant_preservation (α : Type) [DecidableEq α] :
    dalInvariant (dalInit α) ∧
    (∀ (s : DALState α) (i : Int) (w : α), dalInvariant s →
      dalInvariant (dalInsertWidget s i w)) ∧
    (∀ (s : DALState α) (i : Int), dalInvariant s → 0 ≤ i →
      dalInvariant (dalSetCurrentIndex s i)) ∧
    (∀ (s s2 : DALState α) (w : α), dalInvariant s →
      dalRemoveWidget s w = some s2 →
      (s.currentWidget = some w ∨
        ∀ p, pyListIndex s.widgets w = some p → s.currentIndex < (p : Int)) →
      dalInvariant s2) :=
  ⟨dalInvariant_initial α,
   fun s i w hs => dalInvariant_insert s i w hs,
   fun s i hs hi => dalInvariant_set s i hs hi,
   fun s s2 w hs hrem hcond => dalInvariant_remove s s2 w hs hrem hcond⟩

/-- Witness for C9: the insert-preservation clause applied to a concrete
one-widget layout, and the remove clause applied to removing the current
widget. -/
theorem C9_witness :
    dalInvariant (dalInsertWidget (⟨[3], 0, some 3, some 3⟩ : DALState Nat) 0 4) ∧
    dalInvariant (⟨[], -1, none, none⟩ : DALState Nat) :=
  ⟨(C9_invariant_preservation Nat).2.1 ⟨[3], 0, some 3, some 3⟩ 0 4 (by decide),
   (C9_invariant_preservation Nat).2.2.2 ⟨[3], 0, some 3, some 3⟩
     ⟨[], -1, none, none⟩ 3 (by decide) (by decide) (Or.inl (by decide))⟩

/-! ## Claim C3 -/

theorem indicatorScan_mem (allowed : Nat) (px py : Int)
    (l : List (Nat × DropIndicator)) (a : Nat)
    (h : indicatorScan allowed px py l = a) (ha : a ≠ invalidArea) :
    ∃ wdg, (a, wdg) ∈ l ∧ pyFlagMem a allowed = true ∧ wdg.visible = true ∧
      wdg.geom.containsPt px py = true := by
  induction l with
  | nil =>
    unfold indicatorScan at h
    exact absurd h.symm ha
  | cons hd t ih =>
    obtain ⟨a0, w0⟩ := hd
    unfold indicatorScan at h
    split at h
    · rename_i hcond
      subst h
      exact ⟨w0, List.mem_cons_self _ _, hcond.1, hcond.2.1, hcond.2.2⟩
    · rcases ih h with ⟨wdg, hmem, h1, h2, h3⟩
      exact ⟨wdg, List.mem_cons_of_mem _ hmem, h1, h2, h3⟩

theorem indicatorScan_invalid (allowed : Nat) (px py : Int)
    (l : List (Nat × DropIndicator))
    (h : ∀ a wdg, (a, wdg) ∈ l → a ≠ invalidArea →
      ¬(pyFlagMem a allowed = true ∧ wdg.visible = true ∧
        wdg.geom.containsPt px py = true)) :
    indicatorScan allowed px py l = invalidArea := by
  induction l with
  | nil => rfl
  | cons hd t ih =>
    obtain ⟨a0, w0⟩ := hd
    unfold indicatorScan
    split
    · rename_i hcond
      by_cases h0 : a0 = invalidArea
      · exact h0
      · exact absurd ⟨hcond.1, hcond.2.1, hcond.2.2⟩
          (h a0 w0 (List.mem_cons_self _ _) h0)
    · exact ih (fun a wdg hm => h a wdg (List.mem_cons_of_mem _ hm))

/-- C3: drop_area_under_cursor returns a non-invalid area A only when (a)
the cursor lies inside the visible drop indicator widget for A and A is in
the allowed areas, or (b) the target widget is a dock area widget and the
cursor is over its title bar, in which case A is center (the allowed-area
set is not consulted in case (b)); in every other situation it returns
invalid. -/
theorem C3_drop_area_under_cursor (s : OverlayState) (cur : Int × Int) :
    (∀ a, dropAreaUnderCursor s cur = a → a ≠ invalidArea →
      (∃ wdg, (a, wdg) ∈ s.indicators ∧ pyFlagMem a s.allowedAreas = true ∧
        wdg.visible = true ∧
        wdg.geom.containsPt (cur.1 - s.crossTopLeft.1)
          (cur.2 - s.crossTopLeft.2) = true) ∨
      (∃ t, s.target = some t ∧
        t.titleBarGeom.containsPt (cur.1 - t.topLeft.1)
          (cur.2 - t.topLeft.2) = true ∧ a = centerArea)) ∧
    ((∀ a wdg, (a, wdg) ∈ s.indicators → a ≠ invalidArea →
        ¬(pyFlagMem a s.allowedAreas = true ∧ wdg.visible = true ∧
          wdg.geom.containsPt (cur.1 - s.crossTopLeft.1)
            (cur.2 - s.crossTopLeft.2) = true)) →
      (∀ t, s.target = some t →
        t.titleBarGeom.containsPt (cur.1 - t.topLeft.1)
          (cur.2 - t.topLeft.2) = false) →
      dropAreaUnderCursor s cur = invalidArea) := by
  constructor
  · intro a h ha
    unfold dropAreaUnderCursor at h
    by_cases hcl : cursorLocation s cur ≠ invalidArea
    · rw [if_pos hcl] at h
      left
      exact indicatorScan_mem s.allowedAreas _ _ s.indicators a h ha
    · rw [if_neg hcl] at h
      cases ht : s.target with
      | none =>
        rw [ht] at h
        exact absurd h.symm ha
      | some t =>
        rw [ht] at h
        dsimp only at h
        by_cases hcont : t.titleBarGeom.containsPt (cur.1 - t.topLeft.1)
            (cur.2 - t.topLeft.2) = true
        · rw [if_pos hcont] at h
          right
          exact ⟨t, rfl, hcont, h.symm⟩
        · rw [if_neg hcont] at h
          exact absurd h.symm ha
  · intro h1 h2
    unfold dropAreaUnderCursor
    have hcl : cursorLocation s cur = invalidArea :=
      indicatorScan_invalid s.allowedAreas _ _ s.indicators h1
    rw [if_neg (fun hne => hne hcl)]
    cases ht : s.target with
    | none => rfl
    | some t =>
      dsimp only
      rw [if_neg]
      intro hcont
      have hfalse := h2 t ht
      rw [hfalse] at hcont
      exact Bool.noConfusion hcont

/-- Witness for C3 on a concrete overlay: the cursor sits in the visible top
indicator, so the result is top and satisfies alternative (a); and on an
overlay with no hit and no dock-area target it is invalid. -/
theorem C3_witness :
    ((∃ wdg, (topArea, wdg) ∈
        [(topArea, (⟨true, ⟨0, 0, 10, 10⟩⟩ : DropIndicator))] ∧
        pyFlagMem topArea allDockAreas = true ∧ wdg.visible = true ∧
        wdg.geom.containsPt (5 - 0) (5 - 0) = true) ∨
      (∃ t, (none : Option DockAreaTargetInfo) = some t ∧
        t.titleBarGeom.containsPt (5 - t.topLeft.1) (5 - t.topLeft.2) = true ∧
        topArea = centerArea)) ∧
    dropAreaUnderCursor
      ⟨.dock_area, allDockAreas, (0, 0),
        [(topArea, ⟨false, ⟨0, 0, 10, 10⟩⟩)], none, true, 100, 50, none⟩
      (5, 5) = invalidArea :=
  ⟨(C3_drop_area_under_cursor
      ⟨.dock_area, allDockAreas, (0, 0),
        [(topArea, ⟨true, ⟨0, 0, 10, 10⟩⟩)], none, true, 100, 50, none⟩
      (5, 5)).1 topArea rfl (by decide),
   (C3_drop_area_under_cursor
      ⟨.dock_area, allDockAreas, (0, 0),
        [(topArea, ⟨false, ⟨0, 0, 10, 10⟩⟩)], none, true, 100, 50, none⟩
      (5, 5)).2
    (by
      intro a wdg hm _
      simp only [List.mem_singleton, Prod.mk.injEq] at hm
      obtain ⟨rfl, rfl⟩ := hm
      rintro ⟨_, hvis, _⟩
      exact Bool.noConfusion hvis)
    (by intro t ht; exact Option.noConfusion ht)⟩

/-! ## Claim C6 -/

/-- C6: after a paint event with drop preview enabled, drop_overlay_rect is
the full overlay rectangle for center; the top/right/bottom/left strip of
1/factor of the height or width (factor 2 in dock-area mode, 3 in container
mode) for the edge areas; and it is left unchanged for invalid.  With the
preview disabled it is reset to the empty rectangle. -/
theorem C6_paint_event_drop_rect (s : OverlayState) (cur : Int × Int) :
    (s.dropPreviewEnabled = false →
      (overlayPaintEvent s cur).dropAreaRect = some emptyRectQ) ∧
    (s.dropPreviewEnabled = true →
      (dropAreaUnderCursor s cur = topArea →
        (overlayPaintEvent s cur).dropAreaRect =
          some ⟨0, 0, (s.width : ℚ),
            (s.height : ℚ) / overlayFactor s.mode⟩) ∧
      (dropAreaUnderCursor s cur = rightArea →
        (overlayPaintEvent s cur).dropAreaRect =
          some ⟨(s.width : ℚ) - (s.width : ℚ) / overlayFactor s.mode, 0,
            (s.width : ℚ) / overlayFactor s.mode, (s.height : ℚ)⟩) ∧
      (dropAreaUnderCursor s cur = bottomArea →
        (overlayPaintEvent s cur).dropAreaRect =
          some ⟨0, (s.height : ℚ) - (s.height : ℚ) / overlayFactor s.mode,
            (s.width : ℚ), (s.height : ℚ) / overlayFactor s.mode⟩) ∧
      (dropAreaUnderCursor s cur = leftArea →
        (overlayPaintEvent s cur).dropAreaRect =
          some ⟨0, 0, (s.width : ℚ) / overlayFactor s.mode,
            (s.height : ℚ)⟩) ∧
      (dropAreaUnderCursor s cur = centerArea →
        (overlayPaintEvent s cur).dropAreaRect =
          some ⟨0, 0, (s.width : ℚ), (s.height : ℚ)⟩) ∧
      (dropAreaUnderCursor s cur = invalidArea →
        (overlayPaintEvent s cur).dropAreaRect = s.dropAreaRect)) := by
  have hfactor : overlayFactor s.mode = 3 ∨ overlayFactor s.mode = 2 := by
    unfold overlayFactor
    cases s.mode <;> simp
  have hf0 : overlayFactor s.mode ≠ 0 := by
    rcases hfactor with h | h <;> rw [h] <;> norm_num
  constructor
  · intro hoff
    unfold overlayPaintEvent
    rw [if_pos (by rw [hoff]; exact Bool.false_ne_true)]
  · intro hon
    refine ⟨?_, ?_, ?_, ?_, ?_, ?_⟩ <;> intro hda <;>
      unfold overlayPaintEvent <;>
      rw [if_neg (fun hc => hc hon)] <;> rw [hda]
    · rw [if_pos rfl]
      rfl
    · rw [if_neg (by decide), if_pos rfl]
      show some (QRectQ.setX ⟨0, 0, (s.width : ℚ), (s.height : ℚ)⟩
        ((s.width : ℚ) * (1 - 1 / overlayFactor s.mode))) = _
      unfold QRectQ.setX
      have hxw : (s.width : ℚ) * (1 - 1 / overlayFactor s.mode) =
          (s.width : ℚ) - (s.width : ℚ) / overlayFactor s.mode := by
        field_simp
        ring
      congr 1
      rw [QRectQ.mk.injEq]
      refine ⟨hxw, rfl, ?_, rfl⟩
      rw [hxw]
      ring
    · rw [if_neg (by decide), if_neg (by decide), if_pos rfl]
      show some (QRectQ.setY ⟨0, 0, (s.width : ℚ), (s.height : ℚ)⟩
        ((s.height : ℚ) * (1 - 1 / overlayFactor s.mode))) = _
      unfold QRectQ.setY
      have hyh : (s.height : ℚ) * (1 - 1 / overlayFactor s.mode) =
          (s.height : ℚ) - (s.height : ℚ) / overlayFactor s.mode := by
        field_simp
        ring
      congr 1
      rw [QRectQ.mk.injEq]
      refine ⟨rfl, hyh, rfl, ?_⟩
      rw [hyh]
      ring
    · rw [if_neg (by decide), if_neg (by decide), if_neg (by decide),
        if_pos rfl]
      rfl
    · rw [if_neg (by decide), if_neg (by decide), if_neg (by decide),
        if_neg (by decide), if_pos rfl]
    · rw [if_neg (by decide), if_neg (by decide), if_neg (by decide),
        if_neg (by decide), if_neg (by decide)]

/-- Witness for C6: concrete 100x50 dock-area overlay with the cursor in the
top indicator (factor 2) and with the preview disabled. -/
theorem C6_witness :
    (overlayPaintEvent
      ⟨.dock_area, allDockAreas, (0, 0), [(topArea, ⟨true, ⟨0, 0, 10, 10⟩⟩)],
        none, true, 100, 50, none⟩ (5, 5)).dropAreaRect =
      some ⟨0, 0, ((100 : Int) : ℚ),
        ((50 : Int) : ℚ) / overlayFactor OverlayMode.dock_area⟩ ∧
    (overlayPaintEvent
      ⟨.dock_area, allDockAreas, (0, 0), [(topArea, ⟨true, ⟨0, 0, 10, 10⟩⟩)],
        none, false, 100, 50, none⟩ (5, 5)).dropAreaRect = some emptyRectQ :=
  ⟨((C6_paint_event_drop_rect
      ⟨.dock_area, allDockAreas, (0, 0), [(topArea, ⟨true, ⟨0, 0, 10, 10⟩⟩)],
        none, true, 100, 50, none⟩ (5, 5)).2 rfl).1 rfl,
   (C6_paint_event_drop_rect
      ⟨.dock_area, allDockAreas, (0, 0), [(topArea, ⟨true, ⟨0, 0, 10, 10⟩⟩)],
        none, false, 100, 50, none⟩ (5, 5)).1 rfl⟩

/-! ## Claim C7 -/

theorem c7LastSizes_cons_ne (k : XTree) (rest : List XTree)
    (h : ¬ k.nameOf = "Sizes") :
    c7LastSizes (k :: rest) = c7LastSizes rest := by
  show (match c7LastSizes rest with
    | some e => some e
    | none => if k.nameOf = "Sizes" then some k else none) = c7LastSizes rest
  cases hr : c7LastSizes rest with
  | some e => rfl
  | none => exact if_neg h

theorem c7ChildFails_false_of_other (reg : List String) (testing : Bool)
    (k : XTree) (h1 : ¬ k.nameOf = "Splitter") (h2 : ¬ k.nameOf = "Area") :
    c7ChildFails reg testing k = false := by
  unfold c7ChildFails
  rw [if_neg h1, if_neg h2]

theorem c7ChildFails_of_splitter (reg : List String) (testing : Bool)
    (k : XTree) (h1 : k.nameOf = "Splitter") (b : Bool)
    (cn : Option RWidget) (h : restoreSplitter reg testing k = some (b, cn)) :
    c7ChildFails reg testing k = !b := by
  unfold c7ChildFails
  rw [if_pos h1, h]
  cases b <;> rfl

theorem c7ChildFails_of_area (reg : List String) (testing : Bool)
    (k : XTree) (h1 : ¬ k.nameOf = "Splitter") (h2 : k.nameOf = "Area")
    (b : Bool) (cn : Option RWidget)
    (h : restoreDockArea reg testing k = some (b, cn)) :
    c7ChildFails reg testing k = !b := by
  unfold c7ChildFails
  rw [if_neg h1, if_pos h2, h]
  cases b <;> rfl

/-- Invariant of the restore_splitter reading loop: when the loop finishes
without a Python exception, it returns the early-failure marker exactly when
some child Splitter/Area element fails, and on completion the final sizes
are the initial ones when no Sizes child exists and the parse of the last
Sizes child otherwise. -/
theorem splitterKidsSpec (reg : List String) (testing : Bool) :
    ∀ (kids : XForest) (acc : List RWidget) (vis : Bool) (sizes : List Int)
      (r : Option (List RWidget × Bool × List Int)),
      splitterKids reg testing kids acc vis sizes = some r →
      ((r = none → ∃ k ∈ kids.toList, c7ChildFails reg testing k = true) ∧
       (∀ ch v sz, r = some (ch, v, sz) →
         (∀ k ∈ kids.toList, c7ChildFails reg testing k = false) ∧
         (match c7LastSizes kids.toList with
          | none => sz = sizes
          | some klast => pySizes klast.textOf = some sz)))
  | .nil, acc, vis, sizes, r, h => by
    unfold splitterKids at h
    have hr : some (acc, vis, sizes) = r := Option.some_inj.mp h
    constructor
    · intro hnone
      rw [← hr] at hnone
      exact Option.noConfusion hnone
    · intro ch v sz hsome
      rw [← hr] at hsome
      have heq := Option.some_inj.mp hsome
      have hsz : sizes = sz := congrArg (fun t => t.2.2) heq
      exact ⟨fun k hk => absurd hk (List.not_mem_nil k), hsz.symm⟩
  | .cons k rest, acc, vis, sizes, r, h => by
    unfold splitterKids at h
    by_cases hn1 : k.nameOf = "Splitter"
    · rw [if_pos hn1] at h
      cases hres : restoreSplitter reg testing k with
      | none => rw [hres] at h; exact Option.noConfusion h
      | some br =>
        obtain ⟨b, cn⟩ := br
        rw [hres] at h
        cases b with
        | false =>
          dsimp only at h
          have hr : (none : Option (List RWidget × Bool × List Int)) = r :=
            Option.some_inj.mp h
          constructor
          · intro _
            exact ⟨k, List.mem_cons_self _ _,
              c7ChildFails_of_splitter reg testing k hn1 false cn hres⟩
          · intro ch v sz hsome
            rw [← hr] at hsome
            exact Option.noConfusion hsome
        | true =>
          have hcf : c7ChildFails reg testing k = false :=
            c7ChildFails_of_splitter reg testing k hn1 true cn hres
          have step : ∀ acc2 vis2,
              splitterKids reg testing rest acc2 vis2 sizes = some r →
              ((r = none →
                ∃ k0 ∈ (XForest.cons k rest).toList,
                  c7ChildFails reg testing k0 = true) ∧
               (∀ ch v sz, r = some (ch, v, sz) →
                 (∀ k0 ∈ (XForest.cons k rest).toList,
                   c7ChildFails reg testing k0 = false) ∧
                 (match c7LastSizes (XForest.cons k rest).toList with
                  | none => sz = sizes
                  | some klast => pySizes klast.textOf = some sz))) := by
            intro acc2 vis2 h2
            have ih := splitterKidsSpec reg testing rest acc2 vis2 sizes r h2
            constructor
            · intro hnone
              rcases ih.1 hnone with ⟨k0, hk0, hf⟩
              exact ⟨k0, List.mem_cons_of_mem _ hk0, hf⟩
            · intro ch v sz hsome
              rcases ih.2 ch v sz hsome with ⟨hall, hsz⟩
              refine ⟨?_, ?_⟩
              · intro k0 hk0
                rcases List.mem_cons.mp hk0 with h0 | h0
                · rw [h0]; exact hcf
                · exact hall k0 h0
              · show (match c7LastSizes (k :: rest.toList) with
                  | none => sz = sizes
                  | some klast => pySizes klast.textOf = some sz)
                rw [c7LastSizes_cons_ne k rest.toList (by rw [hn1]; decide)]
                exact hsz
          cases cn with
          | some c =>
            cases testing with
            | false => exact step (acc ++ [c]) (vis || c.visibleTo) h
            | true => exact step acc vis h
          | none => exact step acc vis h
    · rw [if_neg hn1] at h
      by_cases hn2 : k.nameOf = "Area"
      · rw [if_pos hn2] at h
        cases hres : restoreDockArea reg testing k with
        | none => rw [hres] at h; exact Option.noConfusion h
        | some br =>
          obtain ⟨b, cn⟩ := br
          rw [hres] at h
          cases b with
          | false =>
            dsimp only at h
            have hr : (none : Option (List RWidget × Bool × List Int)) = r :=
              Option.some_inj.mp h
            constructor
            · intro _
              exact ⟨k, List.mem_cons_self _ _,
                c7ChildFails_of_area reg testing k hn1 hn2 false cn hres⟩
            · intro ch v sz hsome
              rw [← hr] at hsome
              exact Option.noConfusion hsome
          | true =>
            have hcf : c7ChildFails reg testing k = false :=
              c7ChildFails_of_area reg testing k hn1 hn2 true cn hres
            have step : ∀ acc2 vis2,
                splitterKids reg testing rest acc2 vis2 sizes = some r →
                ((r = none →
                  ∃ k0 ∈ (XForest.cons k rest).toList,
                    c7ChildFails reg testing k0 = true) ∧
                 (∀ ch v sz, r = some (ch, v, sz) →
                   (∀ k0 ∈ (XForest.cons k rest).toList,
                     c7ChildFails reg testing k0 = false) ∧
                   (match c7LastSizes (XForest.cons k rest).toList with
                    | none => sz = sizes
                    | some klast => pySizes klast.textOf = some sz))) := by
              intro acc2 vis2 h2
              have ih := splitterKidsSpec reg testing rest acc2 vis2 sizes r h2
              constructor
              · intro hnone
                rcases ih.1 hnone with ⟨k0, hk0, hf⟩
                exact ⟨k0, List.mem_cons_of_mem _ hk0, hf⟩
              · intro ch v sz hsome
                rcases ih.2 ch v sz hsome with ⟨hall, hsz⟩
                refine ⟨?_, ?_⟩
                · intro k0 hk0
                  rcases List.mem_cons.mp hk0 with h0 | h0
                  · rw [h0]; exact hcf
                  · exact hall k0 h0
                · show (match c7LastSizes (k :: rest.toList) with
                    | none => sz = sizes
                    | some klast => pySizes klast.textOf = some sz)
                  rw [c7LastSizes_cons_ne k rest.toList (by rw [hn2]; decide)]
                  exact hsz
            cases cn with
            | some c =>
              cases testing with
              | false => exact step (acc ++ [c]) (vis || c.visibleTo) h
              | true => exact step acc vis h
            | none => exact step acc vis h
      · rw [if_neg hn2] at h
        by_cases hn3 : k.nameOf = "Sizes"
        · rw [if_pos hn3] at h
          cases hps : pySizes k.textOf with
          | none => rw [hps] at h; exact Option.noConfusion h
          | some l =>
            rw [hps] at h
            have ih := splitterKidsSpec reg testing rest acc vis l r h
            have hcf : c7ChildFails reg testing k = false :=
              c7ChildFails_false_of_other reg testing k hn1 hn2
            constructor
            · intro hnone
              rcases ih.1 hnone with ⟨k0, hk0, hf⟩
              exact ⟨k0, List.mem_cons_of_mem _ hk0, hf⟩
            · intro ch v sz hsome
              rcases ih.2 ch v sz hsome with ⟨hall, hsz⟩
              refine ⟨?_, ?_⟩
              · intro k0 hk0
                rcases List.mem_cons.mp hk0 with h0 | h0
                · rw [h0]; exact hcf
                · exact hall k0 h0
              · show (match c7LastSizes (k :: rest.toList) with
                  | none => sz = sizes
                  | some klast => pySizes klast.textOf = some sz)
                have hunf : c7LastSizes (k :: rest.toList) =
                    (match c7LastSizes rest.toList with
                     | some e => some e
                     | none => some k) := by
                  show (match c7LastSizes rest.toList with
                    | some e => some e
                    | none => if k.nameOf = "Sizes" then some k else none) =
                    (match c7LastSizes rest.toList with
                     | some e => some e
                     | none => some k)
                  cases c7LastSizes rest.toList with
                  | some e => rfl
                  | none => exact if_pos hn3
                rw [hunf]
                cases he : c7LastSizes rest.toList with
                | some e =>
                  rw [he] at hsz
                  exact hsz
                | none =>
                  rw [he] at hsz
                  have hsz2 : sz = l := hsz
                  show pySizes k.textOf = some sz
                  rw [hsz2]
                  exact hps
        · rw [if_neg hn3] at h
          have ih := splitterKidsSpec reg testing rest acc vis sizes r h
          have hcf : c7ChildFails reg testing k = false :=
            c7ChildFails_false_of_other reg testing k hn1 hn2
          constructor
          · intro hnone
            rcases ih.1 hnone with ⟨k0, hk0, hf⟩
            exact ⟨k0, List.mem_cons_of_mem _ hk0, hf⟩
          · intro ch v sz hsome
            rcases ih.2 ch v sz hsome with ⟨hall, hsz⟩
            refine ⟨?_, ?_⟩
            · intro k0 hk0
              rcases List.mem_cons.mp hk0 with h0 | h0
              · rw [h0]; exact hcf
              · exact hall k0 h0
            · show (match c7LastSizes (k :: rest.toList) with
                | none => sz = sizes
                | some klast => pySizes klast.textOf = some sz)
              rw [c7LastSizes_cons_ne k rest.toList hn3]
              exact hsz

theorem pyIntTruthy_iff (n : Int) : pyIntTruthy n = true ↔ n ≠ 0 := by
  unfold pyIntTruthy
  simp

/-- Characterisation of restoreSplitterFinish applied to the actual reading
loop: assuming the run raised no exception and the Count attribute parsed to
n, failure is equivalent to n = 0, a failing child, or a Sizes/Count length
mismatch; failure carries no widget; and a delivered splitter carries
exactly the parsed Sizes list of length n. -/
theorem c7FinishSpec (reg : List String) (testing : Bool)
    (orient : Orientation) (attrs : List (String × String)) (kids : XForest)
    (r : Bool × Option RWidget)
    (hrun : restoreSplitterFinish testing orient attrs
      (splitterKids reg testing kids [] false []) = some r)
    (n : Int) (hcnt : pyInt? (attrValue attrs "Count") = some n) :
    (r.1 = false ↔
      (n = 0 ∨ (∃ k ∈ kids.toList, c7ChildFails reg testing k = true) ∨
       (∀ l, c7ParsedSizes kids.toList = some l → (l.length : Int) ≠ n))) ∧
    (r.1 = false → r.2 = none) ∧
    (∀ o ch sz v, r.2 = some (.spl o ch sz v) →
      r.1 = true ∧ testing = false ∧
      c7ParsedSizes kids.toList = some sz ∧ (sz.length : Int) = n) := by
  unfold restoreSplitterFinish at hrun
  rw [hcnt] at hrun
  dsimp only at hrun
  by_cases hz : n = 0
  · rw [if_pos (by rw [pyIntTruthy_iff]; simp [hz])] at hrun
    have hr : (false, (none : Option RWidget)) = r := Option.some_inj.mp hrun
    rw [← hr]
    refine ⟨⟨fun _ => Or.inl hz, fun _ => rfl⟩, fun _ => rfl, ?_⟩
    intro o ch sz v hsome
    exact Option.noConfusion hsome
  · rw [if_neg (by rw [pyIntTruthy_iff]; simp [hz])] at hrun
    cases hloop : splitterKids reg testing kids [] false [] with
    | none => rw [hloop] at hrun; exact Option.noConfusion hrun
    | some lr =>
      rw [hloop] at hrun
      have spec := splitterKidsSpec reg testing kids [] false [] lr hloop
      cases lr with
      | none =>
        dsimp only at hrun
        have hr : (false, (none : Option RWidget)) = r := Option.some_inj.mp hrun
        rcases spec.1 rfl with ⟨k0, hk0, hf⟩
        rw [← hr]
        refine ⟨⟨fun _ => Or.inr (Or.inl ⟨k0, hk0, hf⟩), fun _ => rfl⟩,
          fun _ => rfl, ?_⟩
        intro o ch sz v hsome
        exact Option.noConfusion hsome
      | some triple =>
        obtain ⟨ch, v, sz⟩ := triple
        dsimp only at hrun
        rcases spec.2 ch v sz rfl with ⟨hall, hsz⟩
        have hparsed : c7ParsedSizes kids.toList = some sz := by
          unfold c7ParsedSizes
          cases he : c7LastSizes kids.toList with
          | none =>
            rw [he] at hsz
            have hsz2 : sz = [] := hsz
            rw [hsz2]
          | some klast =>
            rw [he] at hsz
            exact hsz
        by_cases hlen : (sz.length : Int) ≠ n
        · rw [if_pos hlen] at hrun
          have hr : (false, (none : Option RWidget)) = r := Option.some_inj.mp hrun
          rw [← hr]
          refine ⟨⟨fun _ => Or.inr (Or.inr ?_), fun _ => rfl⟩, fun _ => rfl, ?_⟩
          · intro l hl
            have : l = sz := Option.some_inj.mp (hl.symm.trans hparsed)
            rw [this]
            exact hlen
          · intro o ch2 sz2 v2 hsome
            exact Option.noConfusion hsome
        · rw [if_neg hlen] at hrun
          push_neg at hlen
          have hnotfail : ¬ (n = 0 ∨
              (∃ k ∈ kids.toList, c7ChildFails reg testing k = true) ∨
              (∀ l, c7ParsedSizes kids.toList = some l →
                (l.length : Int) ≠ n)) := by
            rintro (h0 | ⟨k0, hk0, hf⟩ | hm)
            · exact hz h0
            · rw [hall k0 hk0] at hf
              exact Bool.noConfusion hf
            · exact hm sz hparsed hlen
          cases testing with
          | true =>
            rw [if_pos rfl] at hrun
            have hr : (true, (none : Option RWidget)) = r := Option.some_inj.mp hrun
            rw [← hr]
            refine ⟨⟨fun hfalse => absurd hfalse (by simp), fun hrhs =>
              absurd hrhs hnotfail⟩, fun hfalse => absurd hfalse (by simp), ?_⟩
            intro o ch2 sz2 v2 hsome
            exact Option.noConfusion hsome
          | false =>
            rw [if_neg (by simp)] at hrun
            by_cases hch : ch.length = 0
            · rw [if_pos hch] at hrun
              have hr : (true, (none : Option RWidget)) = r := Option.some_inj.mp hrun
              rw [← hr]
              refine ⟨⟨fun hfalse => absurd hfalse (by simp), fun hrhs =>
                absurd hrhs hnotfail⟩, fun hfalse => absurd hfalse (by simp),
                ?_⟩
              intro o ch2 sz2 v2 hsome
              exact Option.noConfusion hsome
            · rw [if_neg hch] at hrun
              have hr : (true, some (RWidget.spl orient ch sz v)) = r :=
                Option.some_inj.mp hrun
              rw [← hr]
              refine ⟨⟨fun hfalse => absurd hfalse (by simp), fun hrhs =>
                absurd hrhs hnotfail⟩, fun hfalse => absurd hfalse (by simp),
                ?_⟩
              intro o ch2 sz2 v2 hsome
              have heq := Option.some_inj.mp hsome
              have hsz2 : sz = sz2 := by
                cases heq
                rfl
              refine ⟨rfl, rfl, ?_, ?_⟩
              · rw [← hsz2]; exact hparsed
              · rw [← hsz2]; exact hlen

/-- The tree-reading-order characterisation of restore_splitter: failure
(False with no widget) exactly when the Orientation attribute starts with
neither a dash nor a pipe, or the Count attribute is zero, or a child
Splitter or Area element fails to restore, or the number of integers in the
Sizes element differs from Count; otherwise success, and a produced
splitter widget (only possible outside testing mode) carries exactly the
parsed Sizes list.  The hypotheses restrict the statement to runs that
finish without a Python exception and, for the clauses past the orientation
check, to a Count attribute that parses as an int (otherwise the run raises
and hrun cannot hold).  The claim theorem below transfers this to the
stream semantics on stream-well-formed documents via the bridge
theorems. -/
theorem restoreSplitterTreeSpec (reg : List String) (testing : Bool) (e : XTree)
    (r : Bool × Option RWidget)
    (hrun : restoreSplitter reg testing e = some r) :
    (c7OrientOk e = false → r = (false, none)) ∧
    (∀ n : Int, pyInt? (attrValue e.attrsOf "Count") = some n →
      ((r.1 = false ↔
        (c7OrientOk e = false ∨ n = 0 ∨
         (∃ k ∈ e.kidsOf.toList, c7ChildFails reg testing k = true) ∨
         (∀ l, c7ParsedSizes e.kidsOf.toList = some l →
           (l.length : Int) ≠ n))) ∧
       (r.1 = false → r.2 = none) ∧
       (∀ o ch sz v, r.2 = some (.spl o ch sz v) →
         r.1 = true ∧ testing = false ∧
         c7ParsedSizes e.kidsOf.toList = some sz ∧
         (sz.length : Int) = n))) := by
  obtain ⟨nm, attrs, txt, kids⟩ := e
  unfold restoreSplitter at hrun
  by_cases ho1 : startsWithCh (attrValue attrs "Orientation") '-' = true
  · rw [if_pos ho1] at hrun
    have hok : c7OrientOk (XTree.node nm attrs txt kids) = true := by
      unfold c7OrientOk
      show (startsWithCh (attrValue attrs "Orientation") '-' ||
        startsWithCh (attrValue attrs "Orientation") '|') = true
      rw [ho1]
      rfl
    constructor
    · intro hbad
      rw [hok] at hbad
      exact Bool.noConfusion hbad
    · intro n hcnt
      have spec := c7FinishSpec reg testing .Horizontal attrs kids r hrun n hcnt
      refine ⟨?_, spec.2.1, spec.2.2⟩
      constructor
      · intro hfalse
        exact Or.inr (spec.1.mp hfalse)
      · rintro (hbad | hrest)
        · rw [hok] at hbad
          exact Bool.noConfusion hbad
        · exact spec.1.mpr hrest
  · rw [if_neg ho1] at hrun
    by_cases ho2 : startsWithCh (attrValue attrs "Orientation") '|' = true
    · rw [if_pos ho2] at hrun
      have hok : c7OrientOk (XTree.node nm attrs txt kids) = true := by
        unfold c7OrientOk
        show (startsWithCh (attrValue attrs "Orientation") '-' ||
          startsWithCh (attrValue attrs "Orientation") '|') = true
        rw [ho2]
        exact Bool.or_true _
      constructor
      · intro hbad
        rw [hok] at hbad
        exact Bool.noConfusion hbad
      · intro n hcnt
        have spec := c7FinishSpec reg testing .Vertical attrs kids r hrun n hcnt
        refine ⟨?_, spec.2.1, spec.2.2⟩
        constructor
        · intro hfalse
          exact Or.inr (spec.1.mp hfalse)
        · rintro (hbad | hrest)
          · rw [hok] at hbad
            exact Bool.noConfusion hbad
          · exact spec.1.mpr hrest
    · rw [if_neg ho2] at hrun
      have hr : (false, (none : Option RWidget)) = r := Option.some_inj.mp hrun
      have hbad : c7OrientOk (XTree.node nm attrs txt kids) = false := by
        unfold c7OrientOk
        show (startsWithCh (attrValue attrs "Orientation") '-' ||
          startsWithCh (attrValue attrs "Orientation") '|') = false
        rw [Bool.or_eq_false_iff]
        exact ⟨Bool.eq_false_iff.mpr ho1, Bool.eq_false_iff.mpr ho2⟩
      rw [← hr]
      refine ⟨fun _ => rfl, ?_⟩
      intro n hcnt
      refine ⟨⟨fun _ => Or.inl hbad, fun _ => rfl⟩, fun _ => rfl, ?_⟩
      intro o ch sz v hsome
      exact Option.noConfusion hsome

/-- Appending to the empty string is the identity (String.append
concatenates the underlying character lists). -/
theorem string_empty_append (s : String) : "" ++ s = s := by
  cases s with
  | mk d => rfl

/-- readNextStartElement passes over character data. -/
theorem rdNextStartGo_chars (t : String) (l : List Tok) :
    rdNextStartGo (charsOpt t ++ l) = rdNextStartGo l := by
  unfold charsOpt
  by_cases h : t = ""
  · rw [if_pos h]
    rfl
  · rw [if_neg h]
    rfl

/-- readNextStartElement at the serialised forest headed by an element:
the element's start tag is delivered and its body is next. -/
theorem rdNextStartGo_forest_cons (k : XTree) (ks : XForest)
    (tail : List Tok) :
    rdNextStartGo (forestToks (XForest.cons k ks) ++ tail) =
      (some (k.nameOf, k.attrsOf),
        bodyToks k ++ (forestToks ks ++ tail)) := by
  obtain ⟨n, a, t, kids⟩ := k
  show rdNextStartGo ((elemToks (.node n a t kids) ++ forestToks ks) ++ tail)
      = _
  rw [List.append_assoc]
  rfl

theorem rdNextStart_forest_cons (k : XTree) (ks : XForest)
    (tail : List Tok) :
    rdNextStart ⟨forestToks (XForest.cons k ks) ++ tail, false⟩ =
      (some (k.nameOf, k.attrsOf),
        ⟨bodyToks k ++ (forestToks ks ++ tail), false⟩) := by
  show (match rdNextStartGo (forestToks (XForest.cons k ks) ++ tail) with
        | (res, ts) => (res, (⟨ts, false⟩ : XRd))) = _
  rw [rdNextStartGo_forest_cons]

/-- readNextStartElement at the end tag closing an exhausted forest. -/
theorem rdNextStart_forest_nil (tail : List Tok) :
    rdNextStart ⟨forestToks XForest.nil ++ (Tok.endE :: tail), false⟩ =
      (none, ⟨tail, false⟩) := rfl

/-- skipCurrentElement passes over character data. -/
theorem rdSkipGo_chars (d : Nat) (t : String) (l : List Tok) :
    rdSkipGo d (charsOpt t ++ l) = rdSkipGo d l := by
  unfold charsOpt
  by_cases h : t = ""
  · rw [if_pos h]
    rfl
  · rw [if_neg h]
    rfl

mutual
/-- skipCurrentElement consumes a whole serialised element: the starts and
ends inside it balance out. -/
theorem rdSkipGo_elem : ∀ (k : XTree) (d : Nat) (rest : List Tok),
    rdSkipGo (d + 1) (elemToks k ++ rest) = rdSkipGo (d + 1) rest
  | .node n a t kids, d, rest => by
    show rdSkipGo (d + 1)
        ((Tok.startE n a :: (charsOpt t ++ (forestToks kids ++ [Tok.endE])))
          ++ rest) = rdSkipGo (d + 1) rest
    rw [List.cons_append]
    show rdSkipGo (d + 1 + 1)
        ((charsOpt t ++ (forestToks kids ++ [Tok.endE])) ++ rest) = _
    rw [List.append_assoc, List.append_assoc, rdSkipGo_chars]
    rw [rdSkipGo_forest kids (d + 1) ([Tok.endE] ++ rest)]
    show (if d + 1 + 1 = 1 then some rest else rdSkipGo (d + 1 + 1 - 1) rest)
        = rdSkipGo (d + 1) rest
    rw [if_neg (by omega)]
    rfl

/-- skipCurrentElement passes over a whole serialised forest without
changing the depth. -/
theorem rdSkipGo_forest : ∀ (ks : XForest) (d : Nat) (rest : List Tok),
    rdSkipGo (d + 1) (forestToks ks ++ rest) = rdSkipGo (d + 1) rest
  | .nil, d, rest => rfl
  | .cons k ks, d, rest => by
    show rdSkipGo (d + 1) ((elemToks k ++ forestToks ks) ++ rest) = _
    rw [List.append_assoc, rdSkipGo_elem k d (forestToks ks ++ rest),
      rdSkipGo_forest ks d rest]
end

/-- skipCurrentElement right after an element's start tag consumes exactly
its body. -/
theorem rdSkipCurrent_body (k : XTree) (rest : List Tok) :
    rdSkipCurrent ⟨bodyToks k ++ rest, false⟩ = ⟨rest, false⟩ := by
  obtain ⟨n, a, t, kids⟩ := k
  show (match rdSkipGo 1
      ((charsOpt t ++ (forestToks kids ++ [Tok.endE])) ++ rest) with
    | some ts => (⟨ts, false⟩ : XRd)
    | none => ⟨[], true⟩) = ⟨rest, false⟩
  rw [List.append_assoc, List.append_assoc, rdSkipGo_chars,
    rdSkipGo_forest kids 0 ([Tok.endE] ++ rest)]
  rfl

/-- readElementText right after the start tag of an element holding only
character data delivers its text and stops past its end tag. -/
theorem rdElementText_body (n : String) (a : List (String × String))
    (t : String) (rest : List Tok) :
    rdElementText ⟨bodyToks (.node n a t .nil) ++ rest, false⟩ =
      (t, ⟨rest, false⟩) := by
  show (match rdElementTextGo ""
      ((charsOpt t ++ (forestToks XForest.nil ++ [Tok.endE])) ++ rest) with
    | (t2, ts, e) => (t2, (⟨ts, e⟩ : XRd))) = (t, ⟨rest, false⟩)
  unfold charsOpt
  by_cases h : t = ""
  · rw [if_pos h, h]
    rfl
  · rw [if_neg h]
    show (match rdElementTextGo ("" ++ t) (Tok.endE :: rest) with
      | (t2, ts, e) => (t2, (⟨ts, e⟩ : XRd))) = (t, ⟨rest, false⟩)
    rw [string_empty_append]
    rfl

/-! ## Loop step equations and the chars elimination -/

theorem srAreaLoop_succ (reg : List String) (testing : Bool) (fuel : Nat)
    (st : DALState DW) (vis : Bool) (s : XRd) :
    srAreaLoop reg testing (fuel + 1) st vis s =
      (match rdNextStart s with
       | (none, s1) => some (some (st, vis), s1)
       | (some (n, a), s1) =>
         if n ≠ "Widget" then srAreaLoop reg testing fuel st vis s1
         else
           let objectName := attrValue a "Name"
           if objectName = "" then some (none, s1)
           else
             match pyInt? (attrValue a "Closed") with
             | none => none
             | some cl =>
               let closed := pyIntTruthy cl
               let s2 := rdSkipCurrent s1
               if objectName ∈ reg ∧ testing = false then
                 srAreaLoop reg testing fuel
                   (areaAddDockWidget st (objectName, closed)) false s2
               else srAreaLoop reg testing fuel st vis s2) := rfl

theorem srAreaLoop_chars (reg : List String) (testing : Bool) (fuel : Nat)
    (st : DALState DW) (vis : Bool) (t : String) (X : List Tok) :
    srAreaLoop reg testing (fuel + 1) st vis ⟨charsOpt t ++ X, false⟩ =
      srAreaLoop reg testing (fuel + 1) st vis ⟨X, false⟩ := by
  have h : rdNextStart ⟨charsOpt t ++ X, false⟩ = rdNextStart ⟨X, false⟩ := by
    show (match rdNextStartGo (charsOpt t ++ X) with
          | (res, ts) => (res, (⟨ts, false⟩ : XRd))) =
        (match rdNextStartGo X with
          | (res, ts) => (res, (⟨ts, false⟩ : XRd)))
    rw [rdNextStartGo_chars]
  rw [srAreaLoop_succ, srAreaLoop_succ, h]

theorem srSplitterLoop_succ (reg : List String) (testing : Bool)
    (fuel : Nat) (acc : List RWidget) (vis : Bool) (sizes : List Int)
    (s : XRd) :
    srSplitterLoop reg testing (fuel + 1) acc vis sizes s =
      (match rdNextStart s with
       | (none, s1) => some (some (acc, vis, sizes), s1)
       | (some (n, a), s1) =>
         if n = "Splitter" then
           match srRestoreSplitter reg testing fuel a s1 with
           | none => none
           | some ((false, _), s2) => some (none, s2)
           | some ((true, childNode), s2) =>
             match childNode with
             | some c =>
               if testing = false then
                 srSplitterLoop reg testing fuel (acc ++ [c])
                   (vis || c.visibleTo) sizes s2
               else srSplitterLoop reg testing fuel acc vis sizes s2
             | none => srSplitterLoop reg testing fuel acc vis sizes s2
         else if n = "Area" then
           match srRestoreDockArea reg testing fuel a s1 with
           | none => none
           | some ((false, _), s2) => some (none, s2)
           | some ((true, childNode), s2) =>
             match childNode with
             | some c =>
               if testing = false then
                 srSplitterLoop reg testing fuel (acc ++ [c])
                   (vis || c.visibleTo) sizes s2
               else srSplitterLoop reg testing fuel acc vis sizes s2
             | none => srSplitterLoop reg testing fuel acc vis sizes s2
         else if n = "Sizes" then
           match rdElementText s1 with
           | (t, s2) =>
             match pySizes t with
             | none => none
             | some l => srSplitterLoop reg testing fuel acc vis l s2
         else srSplitterLoop reg testing fuel acc vis sizes
           (rdSkipCurrent s1)) := rfl

theorem srSplitterLoop_chars (reg : List String) (testing : Bool)
    (fuel : Nat) (acc : List RWidget) (vis : Bool) (sizes : List Int)
    (t : String) (X : List Tok) :
    srSplitterLoop reg testing (fuel + 1) acc vis sizes
        ⟨charsOpt t ++ X, false⟩ =
      srSplitterLoop reg testing (fuel + 1) acc vis sizes ⟨X, false⟩ := by
  have h : rdNextStart ⟨charsOpt t ++ X, false⟩ = rdNextStart ⟨X, false⟩ := by
    show (match rdNextStartGo (charsOpt t ++ X) with
          | (res, ts) => (res, (⟨ts, false⟩ : XRd))) =
        (match rdNextStartGo X with
          | (res, ts) => (res, (⟨ts, false⟩ : XRd)))
    rw [rdNextStartGo_chars]
  rw [srSplitterLoop_succ, srSplitterLoop_succ, h]

/-! ## Bridge: stream vs tree, Area side -/

/-- On an Area whose children are all Widget elements, the stream loop
computes exactly what the tree loop computes, and on a completed loop the
reader stops right past the Area end tag. -/
theorem srAreaLoopBridge (reg : List String) (testing : Bool) :
    ∀ (ks : XForest) (fuel : Nat) (st : DALState DW) (vis : Bool)
      (rest : List Tok) (res : Option (DALState DW × Bool)) (sOut : XRd),
      areaKidsAllWidgets ks = true →
      srAreaLoop reg testing fuel st vis
          ⟨forestToks ks ++ (Tok.endE :: rest), false⟩ = some (res, sOut) →
      areaKidsLoop reg testing ks.toList st vis = some res ∧
        (∀ x, res = some x → sOut = ⟨rest, false⟩)
  | _, 0, _, _, _, _, _, _, hrun => Option.noConfusion hrun
  | .nil, fuel + 1, st, vis, rest, res, sOut, hwf, hrun => by
    rw [srAreaLoop_succ, rdNextStart_forest_nil] at hrun
    dsimp only at hrun
    have h := Option.some_inj.mp hrun
    have hres : (some (st, vis) : Option (DALState DW × Bool)) = res :=
      congrArg Prod.fst h
    have hs : (⟨rest, false⟩ : XRd) = sOut := congrArg Prod.snd h
    constructor
    · rw [← hres]
      rfl
    · intro x hx
      exact hs.symm
  | .cons k ks, fuel + 1, st, vis, rest, res, sOut, hwf, hrun => by
    have hwf2 : ((k.nameOf = "Widget") && areaKidsAllWidgets ks) = true := hwf
    rw [Bool.and_eq_true] at hwf2
    have hwk : k.nameOf = "Widget" := of_decide_eq_true hwf2.1
    have hks := hwf2.2
    rw [srAreaLoop_succ, rdNextStart_forest_cons] at hrun
    dsimp only at hrun
    rw [hwk, if_neg (by simp)] at hrun
    by_cases hname : attrValue k.attrsOf "Name" = ""
    · rw [if_pos hname] at hrun
      have h := Option.some_inj.mp hrun
      have hres : (none : Option (DALState DW × Bool)) = res :=
        congrArg Prod.fst h
      constructor
      · show (if k.nameOf ≠ "Widget" then
              areaKidsLoop reg testing (XForest.toList ks) st vis
            else if attrValue k.attrsOf "Name" = "" then some none
            else
              match pyInt? (attrValue k.attrsOf "Closed") with
              | none => none
              | some cl =>
                if attrValue k.attrsOf "Name" ∈ reg ∧ testing = false then
                  areaKidsLoop reg testing (XForest.toList ks)
                    (areaAddDockWidget st
                      (attrValue k.attrsOf "Name", pyIntTruthy cl)) false
                else areaKidsLoop reg testing (XForest.toList ks) st vis) =
            some res
        rw [hwk, if_neg (by simp), if_pos hname, ← hres]
      · intro x hx
        rw [← hres] at hx
        exact Option.noConfusion hx
    · rw [if_neg hname] at hrun
      cases hcl : pyInt? (attrValue k.attrsOf "Closed") with
      | none =>
        rw [hcl] at hrun
        exact Option.noConfusion hrun
      | some cl =>
        rw [hcl] at hrun
        dsimp only at hrun
        rw [rdSkipCurrent_body k (forestToks ks ++ (Tok.endE :: rest))]
          at hrun
        have htree : areaKidsLoop reg testing (k :: XForest.toList ks) st vis
            = (if attrValue k.attrsOf "Name" ∈ reg ∧ testing = false then
                areaKidsLoop reg testing (XForest.toList ks)
                  (areaAddDockWidget st
                    (attrValue k.attrsOf "Name", pyIntTruthy cl)) false
              else areaKidsLoop reg testing (XForest.toList ks) st vis) := by
          show (if k.nameOf ≠ "Widget" then
              areaKidsLoop reg testing (XForest.toList ks) st vis
            else if attrValue k.attrsOf "Name" = "" then some none
            else
              match pyInt? (attrValue k.attrsOf "Closed") with
              | none => none
              | some cl2 =>
                if attrValue k.attrsOf "Name" ∈ reg ∧ testing = false then
                  areaKidsLoop reg testing (XForest.toList ks)
                    (areaAddDockWidget st
                      (attrValue k.attrsOf "Name", pyIntTruthy cl2)) false
                else areaKidsLoop reg testing (XForest.toList ks) st vis) = _
          rw [hwk, if_neg (by simp), if_neg hname, hcl]
        by_cases hreg : attrValue k.attrsOf "Name" ∈ reg ∧ testing = false
        · rw [if_pos hreg] at hrun
          have ih := srAreaLoopBridge reg testing ks fuel
            (areaAddDockWidget st (attrValue k.attrsOf "Name", pyIntTruthy cl))
            false rest res sOut hks hrun
          constructor
          · show areaKidsLoop reg testing (k :: XForest.toList ks) st vis =
              some res
            rw [htree, if_pos hreg]
            exact ih.1
          · exact ih.2
        · rw [if_neg hreg] at hrun
          have ih := srAreaLoopBridge reg testing ks fuel st vis rest res
            sOut hks hrun
          constructor
          · show areaKidsLoop reg testing (k :: XForest.toList ks) st vis =
              some res
            rw [htree, if_neg hreg]
            exact ih.1
          · exact ih.2

theorem srRestoreDockArea_succ (reg : List String) (testing : Bool)
    (fuel : Nat) (attrs : List (String × String)) (s : XRd) :
    srRestoreDockArea reg testing (fuel + 1) attrs s =
      (match pyInt? (attrValue attrs "Tabs") with
       | none => none
       | some _tabs =>
         let currentName := attrValue attrs "Current"
         match srAreaLoop reg testing fuel (dalInit DW) true s with
         | none => none
         | some (none, s1) => some ((false, none), s1)
         | some (some (st, vis), s1) =>
           if testing then some ((true, none), s1)
           else if st.widgets.length = 0 then some ((true, none), s1)
           else some ((true, some (.area st currentName vis)), s1)) := rfl

/-- On an Area element whose children are all Widget elements, the stream
restore computes exactly what the tree restore computes; on success the
reader stops right past the Area end tag. -/
theorem srRestoreDockAreaBridge (reg : List String) (testing : Bool)
    (k : XTree) (fuel : Nat) (rest : List Tok) (r : Bool × Option RWidget)
    (sOut : XRd)
    (hwf : areaKidsAllWidgets k.kidsOf = true)
    (hrun : srRestoreDockArea reg testing fuel k.attrsOf
        ⟨bodyToks k ++ rest, false⟩ = some (r, sOut)) :
    restoreDockArea reg testing k = some r ∧
      (r.1 = true → sOut = ⟨rest, false⟩) := by
  obtain ⟨n, a, t, kids⟩ := k
  have hwf2 : areaKidsAllWidgets kids = true := hwf
  have hrun2 : srRestoreDockArea reg testing fuel a
      ⟨(charsOpt t ++ (forestToks kids ++ [Tok.endE])) ++ rest, false⟩ =
      some (r, sOut) := hrun
  have hlist : (charsOpt t ++ (forestToks kids ++ [Tok.endE])) ++ rest =
      charsOpt t ++ (forestToks kids ++ (Tok.endE :: rest)) := by
    simp [List.append_assoc]
  rw [hlist] at hrun2
  cases fuel with
  | zero => exact Option.noConfusion hrun2
  | succ fuel =>
    rw [srRestoreDockArea_succ] at hrun2
    cases htabs : pyInt? (attrValue a "Tabs") with
    | none =>
      rw [htabs] at hrun2
      exact Option.noConfusion hrun2
    | some tb =>
      rw [htabs] at hrun2
      dsimp only at hrun2
      have htree : restoreDockArea reg testing (XTree.node n a t kids) =
          (match areaKidsLoop reg testing (XForest.toList kids)
              (dalInit DW) true with
           | none => none
           | some none => some (false, none)
           | some (some (st, vis)) =>
             if testing then some (true, none)
             else if st.widgets.length = 0 then some (true, none)
             else some (true,
               some (.area st (attrValue a "Current") vis))) := by
        show (match pyInt? (attrValue a "Tabs") with
          | none => none
          | some _tabs =>
            match areaKidsLoop reg testing (XForest.toList kids)
                (dalInit DW) true with
            | none => none
            | some none => some (false, none)
            | some (some (st, vis)) =>
              if testing then some (true, none)
              else if st.widgets.length = 0 then some (true, none)
              else some (true,
                some (RWidget.area st (attrValue a "Current") vis))) = _
        rw [htabs]
      cases fuel with
      | zero => exact Option.noConfusion hrun2
      | succ fuel2 =>
        rw [srAreaLoop_chars] at hrun2
        cases hloop : srAreaLoop reg testing (fuel2 + 1) (dalInit DW) true
            ⟨forestToks kids ++ (Tok.endE :: rest), false⟩ with
        | none =>
          rw [hloop] at hrun2
          exact Option.noConfusion hrun2
        | some pr =>
          obtain ⟨lres, s1⟩ := pr
          rw [hloop] at hrun2
          have hb := srAreaLoopBridge reg testing kids (fuel2 + 1)
            (dalInit DW) true rest lres s1 hwf2 hloop
          cases lres with
          | none =>
            dsimp only at hrun2
            have h := Option.some_inj.mp hrun2
            have hr : ((false, none) : Bool × Option RWidget) = r :=
              congrArg Prod.fst h
            constructor
            · rw [htree, hb.1, ← hr]
            · intro htrue
              rw [← hr] at htrue
              exact Bool.noConfusion htrue
          | some pr2 =>
            obtain ⟨st, vis⟩ := pr2
            dsimp only at hrun2
            have hclean : s1 = ⟨rest, false⟩ := hb.2 (st, vis) rfl
            cases testing with
            | true =>
              rw [if_pos rfl] at hrun2
              have h := Option.some_inj.mp hrun2
              have hr : ((true, none) : Bool × Option RWidget) = r :=
                congrArg Prod.fst h
              have hs : s1 = sOut := congrArg Prod.snd h
              constructor
              · rw [htree, hb.1, ← hr]
                rfl
              · intro _
                rw [← hs]
                exact hclean
            | false =>
              rw [if_neg (by simp)] at hrun2
              by_cases hw : st.widgets.length = 0
              · rw [if_pos hw] at hrun2
                have h := Option.some_inj.mp hrun2
                have hr : ((true, none) : Bool × Option RWidget) = r :=
                  congrArg Prod.fst h
                have hs : s1 = sOut := congrArg Prod.snd h
                constructor
                · rw [htree, hb.1]
                  dsimp only
                  rw [if_neg (by simp), if_pos hw, ← hr]
                · intro _
                  rw [← hs]
                  exact hclean
              · rw [if_neg hw] at hrun2
                have h := Option.some_inj.mp hrun2
                have hr : ((true, some (RWidget.area st
                    (attrValue a "Current") vis)) : Bool × Option RWidget)
                    = r := congrArg Prod.fst h
                have hs : s1 = sOut := congrArg Prod.snd h
                constructor
                · rw [htree, hb.1]
                  dsimp only
                  rw [if_neg (by simp), if_neg hw, ← hr]
                · intro _
                  rw [← hs]
                  exact hclean

/-! ## Bridge: stream vs tree, Splitter side -/

theorem srRestoreSplitter_succ (reg : List String) (testing : Bool)
    (fuel : Nat) (attrs : List (String × String)) (s : XRd) :
    srRestoreSplitter reg testing (fuel + 1) attrs s =
      (if startsWithCh (attrValue attrs "Orientation") '-' then
        srSplitterFinish testing .Horizontal attrs s
          (srSplitterLoop reg testing fuel [] false [] s)
      else if startsWithCh (attrValue attrs "Orientation") '|' then
        srSplitterFinish testing .Vertical attrs s
          (srSplitterLoop reg testing fuel [] false [] s)
      else some ((false, none), s)) := rfl

theorem restoreSplitter_node (reg : List String) (testing : Bool)
    (n : String) (a : List (String × String)) (t : String)
    (kids : XForest) :
    restoreSplitter reg testing (.node n a t kids) =
      (if startsWithCh (attrValue a "Orientation") '-' then
        restoreSplitterFinish testing .Horizontal a
          (splitterKids reg testing kids [] false [])
      else if startsWithCh (attrValue a "Orientation") '|' then
        restoreSplitterFinish testing .Vertical a
          (splitterKids reg testing kids [] false [])
      else some (false, none)) := rfl

theorem splitterKids_cons (reg : List String) (testing : Bool) (k : XTree)
    (ks : XForest) (acc : List RWidget) (vis : Bool) (sizes : List Int) :
    splitterKids reg testing (.cons k ks) acc vis sizes =
      (if k.nameOf = "Splitter" then
        match restoreSplitter reg testing k with
        | none => none
        | some (false, _) => some none
        | some (true, childNode) =>
          match childNode with
          | some c =>
            if testing = false then
              splitterKids reg testing ks (acc ++ [c]) (vis || c.visibleTo)
                sizes
            else splitterKids reg testing ks acc vis sizes
          | none => splitterKids reg testing ks acc vis sizes
      else if k.nameOf = "Area" then
        match restoreDockArea reg testing k with
        | none => none
        | some (false, _) => some none
        | some (true, childNode) =>
          match childNode with
          | some c =>
            if testing = false then
              splitterKids reg testing ks (acc ++ [c]) (vis || c.visibleTo)
                sizes
            else splitterKids reg testing ks acc vis sizes
          | none => splitterKids reg testing ks acc vis sizes
      else if k.nameOf = "Sizes" then
        match pySizes k.textOf with
        | none => none
        | some l => splitterKids reg testing ks acc vis l
      else splitterKids reg testing ks acc vis sizes) := rfl

/-- After the reading loop, the stream finish and the tree finish agree,
given that the loop results agree (hlb); on success the reader position is
the one the loop delivered. -/
theorem srSplitterFinishBridge (reg : List String) (testing : Bool)
    (orient : Orientation) (attrs : List (String × String)) (kids : XForest)
    (fuel : Nat) (rest : List Tok) (r : Bool × Option RWidget) (sOut : XRd)
    (s0 : XRd)
    (hlb : ∀ (res : Option (List RWidget × Bool × List Int)) (s1 : XRd),
      srSplitterLoop reg testing fuel [] false []
          ⟨forestToks kids ++ (Tok.endE :: rest), false⟩ = some (res, s1) →
      splitterKids reg testing kids [] false [] = some res ∧
        (∀ x, res = some x → s1 = ⟨rest, false⟩))
    (hrun : srSplitterFinish testing orient attrs s0
        (srSplitterLoop reg testing fuel [] false []
          ⟨forestToks kids ++ (Tok.endE :: rest), false⟩) = some (r, sOut)) :
    restoreSplitterFinish testing orient attrs
        (splitterKids reg testing kids [] false []) = some r ∧
      (r.1 = true → sOut = ⟨rest, false⟩) := by
  unfold srSplitterFinish at hrun
  cases hcnt : pyInt? (attrValue attrs "Count") with
  | none =>
    rw [hcnt] at hrun
    exact Option.noConfusion hrun
  | some wc =>
    rw [hcnt] at hrun
    dsimp only at hrun
    by_cases hz : pyIntTruthy wc = true
    · rw [if_neg (not_not_intro hz)] at hrun
      cases hloop : srSplitterLoop reg testing fuel [] false []
          ⟨forestToks kids ++ (Tok.endE :: rest), false⟩ with
      | none =>
        rw [hloop] at hrun
        exact Option.noConfusion hrun
      | some pr =>
        obtain ⟨lres, s1⟩ := pr
        rw [hloop] at hrun
        have hb := hlb lres s1 hloop
        cases lres with
        | none =>
          dsimp only at hrun
          have h := Option.some_inj.mp hrun
          have hr : ((false, none) : Bool × Option RWidget) = r :=
            congrArg Prod.fst h
          constructor
          · rw [hb.1]
            unfold restoreSplitterFinish
            rw [hcnt]
            dsimp only
            rw [if_neg (not_not_intro hz)]
            rw [← hr]
          · intro htrue
            rw [← hr] at htrue
            exact Bool.noConfusion htrue
        | some triple =>
          obtain ⟨ch, v, sz⟩ := triple
          dsimp only at hrun
          have hclean : s1 = ⟨rest, false⟩ := hb.2 (ch, v, sz) rfl
          have htv : restoreSplitterFinish testing orient attrs
              (splitterKids reg testing kids [] false []) =
              (if (sz.length : Int) ≠ wc then some (false, none)
               else if testing then some (true, none)
               else if ch.length = 0 then some (true, none)
               else some (true, some (RWidget.spl orient ch sz v))) := by
            rw [hb.1]
            unfold restoreSplitterFinish
            rw [hcnt]
            dsimp only
            rw [if_neg (not_not_intro hz)]
          by_cases hlen : (sz.length : Int) ≠ wc
          · rw [if_pos hlen] at hrun
            have h := Option.some_inj.mp hrun
            have hr : ((false, none) : Bool × Option RWidget) = r :=
              congrArg Prod.fst h
            constructor
            · rw [htv, if_pos hlen, ← hr]
            · intro htrue
              rw [← hr] at htrue
              exact Bool.noConfusion htrue
          · rw [if_neg hlen] at hrun
            rw [htv, if_neg hlen]
            cases testing with
            | true =>
              rw [if_pos rfl] at hrun ⊢
              have h := Option.some_inj.mp hrun
              have hr : ((true, none) : Bool × Option RWidget) = r :=
                congrArg Prod.fst h
              have hs : s1 = sOut := congrArg Prod.snd h
              exact ⟨by rw [← hr], fun _ => by rw [← hs]; exact hclean⟩
            | false =>
              rw [if_neg (by simp)] at hrun ⊢
              by_cases hch : ch.length = 0
              · rw [if_pos hch] at hrun ⊢
                have h := Option.some_inj.mp hrun
                have hr : ((true, none) : Bool × Option RWidget) = r :=
                  congrArg Prod.fst h
                have hs : s1 = sOut := congrArg Prod.snd h
                exact ⟨by rw [← hr], fun _ => by rw [← hs]; exact hclean⟩
              · rw [if_neg hch] at hrun ⊢
                have h := Option.some_inj.mp hrun
                have hr : ((true, some (RWidget.spl orient ch sz v)) :
                    Bool × Option RWidget) = r := congrArg Prod.fst h
                have hs : s1 = sOut := congrArg Prod.snd h
                exact ⟨by rw [← hr], fun _ => by rw [← hs]; exact hclean⟩
    · rw [if_pos hz] at hrun
      have h := Option.some_inj.mp hrun
      have hr : ((false, none) : Bool × Option RWidget) = r :=
        congrArg Prod.fst h
      constructor
      · unfold restoreSplitterFinish
        rw [hcnt]
        dsimp only
        rw [if_pos hz, ← hr]
      · intro htrue
        rw [← hr] at htrue
        exact Bool.noConfusion htrue

mutual
/-- On a stream-well-formed Splitter element, the stream restore computes
exactly what the tree restore computes; on success the reader stops right
past the Splitter end tag. -/
theorem srSplitterBridge (reg : List String) (testing : Bool) :
    ∀ (k : XTree) (fuel : Nat) (rest : List Tok) (r : Bool × Option RWidget)
      (sOut : XRd), c7wfTree k = true →
      srRestoreSplitter reg testing fuel k.attrsOf
          ⟨bodyToks k ++ rest, false⟩ = some (r, sOut) →
      restoreSplitter reg testing k = some r ∧
        (r.1 = true → sOut = ⟨rest, false⟩)
  | .node n a t kids, fuel, rest, r, sOut, hwf, hrun => by
    cases fuel with
    | zero => exact Option.noConfusion hrun
    | succ fuel =>
      have hwf2 : c7wfKids kids = true := hwf
      have hrun2 : srRestoreSplitter reg testing (fuel + 1) a
          ⟨(charsOpt t ++ (forestToks kids ++ [Tok.endE])) ++ rest, false⟩ =
          some (r, sOut) := hrun
      have hlist : (charsOpt t ++ (forestToks kids ++ [Tok.endE])) ++ rest =
          charsOpt t ++ (forestToks kids ++ (Tok.endE :: rest)) := by
        simp [List.append_assoc]
      rw [hlist, srRestoreSplitter_succ] at hrun2
      have hchars : srSplitterLoop reg testing fuel [] false []
          ⟨charsOpt t ++ (forestToks kids ++ (Tok.endE :: rest)), false⟩ =
          srSplitterLoop reg testing fuel [] false []
            ⟨forestToks kids ++ (Tok.endE :: rest), false⟩ := by
        cases fuel with
        | zero => rfl
        | succ f2 =>
          exact srSplitterLoop_chars reg testing f2 [] false [] t
            (forestToks kids ++ (Tok.endE :: rest))
      have hlb : ∀ (res : Option (List RWidget × Bool × List Int)) (s1 : XRd),
          srSplitterLoop reg testing fuel [] false []
              ⟨forestToks kids ++ (Tok.endE :: rest), false⟩ =
            some (res, s1) →
          splitterKids reg testing kids [] false [] = some res ∧
            (∀ x, res = some x → s1 = ⟨rest, false⟩) :=
        fun res s1 h =>
          srSplitterLoopBridge reg testing kids fuel [] false [] rest res s1
            hwf2 h
      rw [restoreSplitter_node]
      by_cases ho1 : startsWithCh (attrValue a "Orientation") '-' = true
      · rw [if_pos ho1] at hrun2
        rw [if_pos ho1]
        rw [hchars] at hrun2
        exact srSplitterFinishBridge reg testing .Horizontal a kids fuel rest
          r sOut _ hlb hrun2
      · rw [if_neg ho1] at hrun2
        rw [if_neg ho1]
        by_cases ho2 : startsWithCh (attrValue a "Orientation") '|' = true
        · rw [if_pos ho2] at hrun2
          rw [if_pos ho2]
          rw [hchars] at hrun2
          exact srSplitterFinishBridge reg testing .Vertical a kids fuel rest
            r sOut _ hlb hrun2
        · rw [if_neg ho2] at hrun2
          rw [if_neg ho2]
          have h := Option.some_inj.mp hrun2
          have hr : ((false, none) : Bool × Option RWidget) = r :=
            congrArg Prod.fst h
          constructor
          · rw [← hr]
          · intro htrue
            rw [← hr] at htrue
            exact Bool.noConfusion htrue

/-- On a stream-well-formed forest of Splitter children, the stream loop
computes exactly what the tree loop computes; on a completed loop the
reader stops right past the enclosing end tag. -/
theorem srSplitterLoopBridge (reg : List String) (testing : Bool) :
    ∀ (ks : XForest) (fuel : Nat) (acc : List RWidget) (vis : Bool)
      (sizes : List Int) (rest : List Tok)
      (res : Option (List RWidget × Bool × List Int)) (sOut : XRd),
      c7wfKids ks = true →
      srSplitterLoop reg testing fuel acc vis sizes
          ⟨forestToks ks ++ (Tok.endE :: rest), false⟩ = some (res, sOut) →
      splitterKids reg testing ks acc vis sizes = some res ∧
        (∀ x, res = some x → sOut = ⟨rest, false⟩)
  | _, 0, _, _, _, _, _, _, _, hrun => Option.noConfusion hrun
  | .nil, fuel + 1, acc, vis, sizes, rest, res, sOut, hwf, hrun => by
    rw [srSplitterLoop_succ, rdNextStart_forest_nil] at hrun
    dsimp only at hrun
    have h := Option.some_inj.mp hrun
    have hres : (some (acc, vis, sizes) :
        Option (List RWidget × Bool × List Int)) = res :=
      congrArg Prod.fst h
    have hs : (⟨rest, false⟩ : XRd) = sOut := congrArg Prod.snd h
    constructor
    · rw [← hres]
      rfl
    · intro x hx
      exact hs.symm
  | .cons k ks, fuel + 1, acc, vis, sizes, rest, res, sOut, hwf, hrun => by
    have hwf2 : ((if k.nameOf = "Splitter" then c7wfTree k
        else if k.nameOf = "Area" then areaKidsAllWidgets k.kidsOf
        else if k.nameOf = "Sizes" then isNilForest k.kidsOf
        else true) && c7wfKids ks) = true := hwf
    rw [Bool.and_eq_true] at hwf2
    have hcond := hwf2.1
    have hks := hwf2.2
    rw [srSplitterLoop_succ, rdNextStart_forest_cons] at hrun
    dsimp only at hrun
    rw [splitterKids_cons]
    by_cases hn1 : k.nameOf = "Splitter"
    · rw [if_pos hn1] at hrun ⊢
      rw [if_pos hn1] at hcond
      cases hchild : srRestoreSplitter reg testing fuel k.attrsOf
          ⟨bodyToks k ++ (forestToks ks ++ (Tok.endE :: rest)), false⟩ with
      | none =>
        rw [hchild] at hrun
        exact Option.noConfusion hrun
      | some pr =>
        obtain ⟨⟨cb, cn⟩, s2⟩ := pr
        rw [hchild] at hrun
        have hcb := srSplitterBridge reg testing k fuel
          (forestToks ks ++ (Tok.endE :: rest)) (cb, cn) s2 hcond hchild
        rw [hcb.1]
        cases cb with
        | false =>
          dsimp only at hrun ⊢
          have h := Option.some_inj.mp hrun
          have hres : (none : Option (List RWidget × Bool × List Int)) =
              res := congrArg Prod.fst h
          constructor
          · rw [← hres]
          · intro x hx
            rw [← hres] at hx
            exact Option.noConfusion hx
        | true =>
          have hclean : s2 = ⟨forestToks ks ++ (Tok.endE :: rest), false⟩ :=
            hcb.2 rfl
          rw [hclean] at hrun
          cases cn with
          | some c =>
            dsimp only at hrun ⊢
            by_cases ht : testing = false
            · rw [if_pos ht] at hrun ⊢
              exact srSplitterLoopBridge reg testing ks fuel (acc ++ [c])
                (vis || c.visibleTo) sizes rest res sOut hks hrun
            · rw [if_neg ht] at hrun ⊢
              exact srSplitterLoopBridge reg testing ks fuel acc vis sizes
                rest res sOut hks hrun
          | none =>
            dsimp only at hrun ⊢
            exact srSplitterLoopBridge reg testing ks fuel acc vis sizes
              rest res sOut hks hrun
    · rw [if_neg hn1] at hrun ⊢
      rw [if_neg hn1] at hcond
      by_cases hn2 : k.nameOf = "Area"
      · rw [if_pos hn2] at hrun ⊢
        rw [if_pos hn2] at hcond
        cases hchild : srRestoreDockArea reg testing fuel k.attrsOf
            ⟨bodyToks k ++ (forestToks ks ++ (Tok.endE :: rest)), false⟩ with
        | none =>
          rw [hchild] at hrun
          exact Option.noConfusion hrun
        | some pr =>
          obtain ⟨⟨cb, cn⟩, s2⟩ := pr
          rw [hchild] at hrun
          have hcb := srRestoreDockAreaBridge reg testing k fuel
            (forestToks ks ++ (Tok.endE :: rest)) (cb, cn) s2 hcond hchild
          rw [hcb.1]
          cases cb with
          | false =>
            dsimp only at hrun ⊢
            have h := Option.some_inj.mp hrun
            have hres : (none : Option (List RWidget × Bool × List Int)) =
                res := congrArg Prod.fst h
            constructor
            · rw [← hres]
            · intro x hx
              rw [← hres] at hx
              exact Option.noConfusion hx
          | true =>
            have hclean : s2 =
                ⟨forestToks ks ++ (Tok.endE :: rest), false⟩ := hcb.2 rfl
            rw [hclean] at hrun
            cases cn with
            | some c =>
              dsimp only at hrun ⊢
              by_cases ht : testing = false
              · rw [if_pos ht] at hrun ⊢
                exact srSplitterLoopBridge reg testing ks fuel (acc ++ [c])
                  (vis || c.visibleTo) sizes rest res sOut hks hrun
              · rw [if_neg ht] at hrun ⊢
                exact srSplitterLoopBridge reg testing ks fuel acc vis sizes
                  rest res sOut hks hrun
            | none =>
              dsimp only at hrun ⊢
              exact srSplitterLoopBridge reg testing ks fuel acc vis sizes
                rest res sOut hks hrun
      · rw [if_neg hn2] at hrun ⊢
        rw [if_neg hn2] at hcond
        by_cases hn3 : k.nameOf = "Sizes"
        · rw [if_pos hn3] at hrun ⊢
          rw [if_pos hn3] at hcond
          obtain ⟨n2, a2, t2, kk⟩ := k
          cases kk with
          | cons k2 ks2 => exact Bool.noConfusion hcond
          | nil =>
            rw [rdElementText_body n2 a2 t2
              (forestToks ks ++ (Tok.endE :: rest))] at hrun
            dsimp only at hrun
            cases hsz : pySizes t2 with
            | none =>
              rw [hsz] at hrun
              exact Option.noConfusion hrun
            | some l =>
              rw [hsz] at hrun
              have htxt : pySizes (XTree.textOf (.node n2 a2 t2 .nil)) =
                  some l := hsz
              rw [htxt]
              exact srSplitterLoopBridge reg testing ks fuel acc vis l rest
                res sOut hks hrun
        · rw [if_neg hn3] at hrun ⊢
          rw [rdSkipCurrent_body k
            (forestToks ks ++ (Tok.endE :: rest))] at hrun
          exact srSplitterLoopBridge reg testing ks fuel acc vis sizes rest
            res sOut hks hrun
end

/-- C7 (corrected): over the faithful stream semantics, and for
stream-well-formed Splitter elements (every Area element in the subtree
holds only Widget children and every Sizes element holds only character
data - the shape save_state writes; outside it the missing
skipCurrentElement desyncs the reader, see the counterexample),
restore_splitter reports failure (returns False with no widget) exactly
when the Orientation attribute starts with neither a dash nor a pipe, or
the Count attribute is zero, or a child Splitter or Area element fails to
restore, or the number of integers in the Sizes element differs from
Count; otherwise it reports success, and whenever it produces a splitter
widget (only possible outside testing mode) that splitter's sizes are
exactly the parsed Sizes list.  The hypotheses restrict the statement to
runs that finish without a Python exception (with enough fuel, see
srAreaLoop) and, past the orientation check, to a Count attribute that
parses as an int. -/
theorem C7_restore_splitter_stream (reg : List String) (testing : Bool)
    (e : XTree) (fuel : Nat) (r : Bool × Option RWidget) (sOut : XRd)
    (hwf : c7wfTree e = true)
    (hrun : srRestoreSplitter reg testing fuel e.attrsOf
        ⟨bodyToks e, false⟩ = some (r, sOut)) :
    (c7OrientOk e = false → r = (false, none)) ∧
    (∀ n : Int, pyInt? (attrValue e.attrsOf "Count") = some n →
      ((r.1 = false ↔
        (c7OrientOk e = false ∨ n = 0 ∨
         (∃ k ∈ e.kidsOf.toList, c7ChildFails reg testing k = true) ∨
         (∀ l, c7ParsedSizes e.kidsOf.toList = some l →
           (l.length : Int) ≠ n))) ∧
       (r.1 = false → r.2 = none) ∧
       (∀ o ch sz v, r.2 = some (.spl o ch sz v) →
         r.1 = true ∧ testing = false ∧
         c7ParsedSizes e.kidsOf.toList = some sz ∧
         (sz.length : Int) = n))) := by
  have hrun2 : srRestoreSplitter reg testing fuel e.attrsOf
      ⟨bodyToks e ++ [], false⟩ = some (r, sOut) := by
    rw [List.append_nil]
    exact hrun
  have hb := srSplitterBridge reg testing e fuel [] r sOut hwf hrun2
  exact restoreSplitterTreeSpec reg testing e r hb.1

/-- Witness for C7: a stream-well-formed Splitter element with one Area
child holding one registered Widget and a matching one-entry Sizes element
restores successfully over the stream semantics to a splitter whose sizes
are the parsed list [100]. -/
theorem C7_witness :
    ((true, some (RWidget.spl .Horizontal
        [.area ⟨[("w0", false)], 0, some ("w0", false), some ("w0", false)⟩
          "w0" false] [100] false)).1 = true ∧
      false = false ∧
      c7ParsedSizes
        [.node "Area" [("Tabs", "1"), ("Current", "w0")] ""
          (.cons (.node "Widget" [("Name", "w0"), ("Closed", "0")] "" .nil)
            .nil),
         .node "Sizes" [] "100 " .nil] = some [100] ∧
      ((([100] : List Int).length : Int) = 1)) := by
  exact ((C7_restore_splitter_stream ["w0"] false
      (.node "Splitter" [("Orientation", "-"), ("Count", "1")] ""
        (.cons (.node "Area" [("Tabs", "1"), ("Current", "w0")] ""
          (.cons (.node "Widget" [("Name", "w0"), ("Closed", "0")] "" .nil)
            .nil))
         (.cons (.node "Sizes" [] "100 " .nil) .nil))) 9
      (true, some (RWidget.spl .Horizontal
        [.area ⟨[("w0", false)], 0, some ("w0", false), some ("w0", false)⟩
          "w0" false] [100] false)) ⟨[], false⟩ rfl rfl).2 1 rfl).2.2
      .Horizontal
      [.area ⟨[("w0", false)], 0, some ("w0", false), some ("w0", false)⟩
        "w0" false] [100] false rfl

/-- Counterexample to C7 as stated, over the stream semantics, at
c7CounterDoc (a Splitter with Orientation "-" and Count "1", an Area child
whose only child is the empty non-Widget element Foo, then a Sizes element
"100 "): the run returns (False, None) with the Sizes element still unread
in the leftover stream - restore_dock_area's loop, lacking the
skipCurrentElement, ends at the Foo end tag, and the splitter loop then
ends at the Area end tag before ever reaching Sizes, so the empty sizes
list differs from Count - although every failure condition of the claim is
false: the orientation is fine, Count is 1 (not zero), the Area child
itself restores successfully (True) at its position in this very run, no
child fails in the claim's sense, and the Sizes element holds exactly
Count integers. -/
theorem C7_counterexample :
    srRestoreSplitter ["w0"] false 9 c7CounterDoc.attrsOf
        ⟨bodyToks c7CounterDoc, false⟩ =
      some ((false, none),
        ⟨[Tok.startE "Sizes" [], Tok.chars "100 ", Tok.endE, Tok.endE],
          false⟩) ∧
    c7OrientOk c7CounterDoc = true ∧
    pyInt? (attrValue c7CounterDoc.attrsOf "Count") = some 1 ∧
    (1 : Int) ≠ 0 ∧
    srRestoreDockArea ["w0"] false 7 [("Tabs", "0"), ("Current", "")]
        ⟨[Tok.startE "Foo" [], Tok.endE, Tok.endE, Tok.startE "Sizes" [],
          Tok.chars "100 ", Tok.endE, Tok.endE], false⟩ =
      some ((true, none),
        ⟨[Tok.endE, Tok.startE "Sizes" [], Tok.chars "100 ", Tok.endE,
          Tok.endE], false⟩) ∧
    (∀ k ∈ c7CounterDoc.kidsOf.toList,
      c7ChildFails ["w0"] false k = false) ∧
    c7ParsedSizes c7CounterDoc.kidsOf.toList = some [100] ∧
    (([100] : List Int).length : Int) = 1 := by
  refine ⟨rfl, rfl, rfl, by decide, rfl, by decide, rfl, rfl⟩

/-! ## Claim C2 -/

theorem containerLoop_testing_layout {L : Type} (ops : ContainerOps L) :
    ∀ (kids : List XTree) (cnt : Nat) (layout : L) (b : Bool) (c2 : Nat)
      (l2 : L), containerLoop ops true kids cnt layout = some (b, c2, l2) →
      l2 = layout
  | [], cnt, layout, b, c2, l2, h => by
    unfold containerLoop at h
    exact (congrArg (fun t => t.2.2) (Option.some_inj.mp h)).symm
  | k :: rest, cnt, layout, b, c2, l2, h => by
    unfold containerLoop at h
    by_cases hk : k.nameOf = "Container"
    · rw [if_pos hk, if_pos rfl] at h
      cases hc : ops.check cnt k with
      | none => rw [hc] at h; exact Option.noConfusion h
      | some cb =>
        rw [hc] at h
        cases cb with
        | false =>
          dsimp only at h
          exact (congrArg (fun t => t.2.2) (Option.some_inj.mp h)).symm
        | true =>
          dsimp only at h
          exact containerLoop_testing_layout ops rest (cnt + 1) layout b c2 l2 h
    · rw [if_neg hk] at h
      exact containerLoop_testing_layout ops rest cnt layout b c2 l2 h

/-- C2: DockManagerPrivate.restore_state returns False with the layout
untouched whenever check_format (the testing-mode pass over the whole
stream) fails, and check_format fails in particular when the byte array is
empty, when the root element is not named QtAdvancedDockingSystem, or when
the root Version attribute parses to a value different from the requested
version.  The statement quantifies over every behaviour of the
per-container restore operations. -/
theorem C2_restore_state_validation {L : Type} (ops : ContainerOps L)
    (st : DMByteArray) (version : Int) (layout : L) :
    (dmCheckFormat ops st version layout = some false →
      dmRestoreState ops st version layout = some (false, layout)) ∧
    ((st.isEmpty = true ∨ rootNameOf st ≠ "QtAdvancedDockingSystem" ∨
      (∃ v, pyInt? (rootVersionAttr st) = some v ∧ v ≠ version)) →
      dmCheckFormat ops st version layout = some false ∧
      dmRestoreState ops st version layout = some (false, layout)) := by
  have part1 : dmCheckFormat ops st version layout = some false →
      dmRestoreState ops st version layout = some (false, layout) := by
    intro hcf
    unfold dmRestoreState
    rw [hcf]
  refine ⟨part1, ?_⟩
  intro hyp
  have hcheck : dmCheckFormat ops st version layout = some false := by
    unfold dmCheckFormat restoreStateFromXml
    by_cases he : st.isEmpty = true
    · rw [if_pos he]
      rfl
    · rw [if_neg he]
      rcases hyp with h1 | h2 | h3
      · exact absurd h1 he
      · rw [if_pos h2]
        rfl
      · by_cases hn : rootNameOf st ≠ "QtAdvancedDockingSystem"
        · rw [if_pos hn]
          rfl
        · rw [if_neg hn]
          rcases h3 with ⟨v, hv, hne⟩
          rw [hv]
          dsimp only
          rw [if_pos hne]
          rfl
  exact ⟨hcheck, part1 hcheck⟩

/-- Witness for C2: the empty byte array with arbitrary concrete container
operations over a Nat layout. -/
theorem C2_witness :
    dmCheckFormat
      (⟨fun _ _ => some true, fun _ _ l => some (true, l), fun _ l => l,
        id, id, id, id, id⟩ : ContainerOps Nat)
      ⟨true, none⟩ 0 7 = some false ∧
    dmRestoreState
      (⟨fun _ _ => some true, fun _ _ l => some (true, l), fun _ l => l,
        id, id, id, id, id⟩ : ContainerOps Nat)
      ⟨true, none⟩ 0 7 = some (false, 7) :=
  (C2_restore_state_validation
    (⟨fun _ _ => some true, fun _ _ l => some (true, l), fun _ l => l,
      id, id, id, id, id⟩ : ContainerOps Nat)
    ⟨true, none⟩ 0 7).2 (Or.inl rfl)

/-! ## Claim C1 -/

/-- C1 (code bug): saving a dock area whose current dock widget is w1 (the
second of two open widgets) records Current="w1", and restore_dock_area
rebuilds the area with w1 current (the last added widget), but the final
restore_dock_areas_indices pass - whose condition
`if not dock_widget_name:` is inverted, so the saved name is never looked
up - resets the current widget to the FIRST open dock widget w0.  The round
trip therefore does not reproduce the saved current widget per area, against
the claim.  (restore_dock_widgets_open_state, which runs in between, cannot
change the area current index because set_current_dock_widget is a no-op
while is_restoring_state() holds.) -/
theorem C1_restore_current_widget_bug :
    areaSaveState ⟨[("w0", false), ("w1", false)], 1, some ("w1", false),
        some ("w1", false)⟩ =
      .node "Area" [("Tabs", "2"), ("Current", "w1")] ""
        (.cons (.node "Widget" [("Name", "w0"), ("Closed", "0")] "" .nil)
          (.cons (.node "Widget" [("Name", "w1"), ("Closed", "0")] "" .nil)
            .nil)) ∧
    restoreDockArea ["w0", "w1"] false
        (areaSaveState ⟨[("w0", false), ("w1", false)], 1, some ("w1", false),
          some ("w1", false)⟩) =
      some (true, some (.area ⟨[("w0", false), ("w1", false)], 1,
        some ("w1", false), some ("w1", false)⟩ "w1" false)) ∧
    restoreDockAreasIndicesStep
        (fun n => if n = "w0" then some ("w0", false)
          else if n = "w1" then some ("w1", false) else none)
        ⟨[("w0", false), ("w1", false)], 1, some ("w1", false),
          some ("w1", false)⟩ "w1" =
      some ⟨[("w0", false), ("w1", false)], 0, some ("w0", false),
        some ("w0", false)⟩ ∧
    (some (("w0", false) : DW) ≠ some (("w1", false) : DW)) :=
  ⟨rfl, rfl, rfl, by decide⟩

end QtPyDocking

